import Mathlib

set_option autoImplicit false

/-!
Verification of the consul-node-sdk client library (`src/client.ts`).

The development shallowly embeds the transport layer (`HttpClient`) and the
endpoint groups (`ConsulAgent`, `CatalogClient`, `HealthClient`, `KVClient`,
`SessionClient`, `EventClient`, `StatusClient`, `CoordinateClient`,
`QueryClient`, `TxnClient`, `SnapshotClient`) as pure Lean functions over a
model of JavaScript runtime values.  The injected network-call function
(`fetchFn`) is modelled as an arbitrary Lean function from the built URL and
assembled request descriptor to a response or a thrown transport error, so
theorems quantify over every behaviour of the injected transport.
-/

/--
Model of a JavaScript runtime value as it appears in this library: query
parameter values, request bodies and decoded JSON responses.  `undef` is the
JavaScript `undefined`, `bytes` is an `ArrayBuffer`, `blob` a `Blob` and
`buffer` a Node.js `Buffer` (a `Uint8Array` subclass, which is *not* an
`instanceof ArrayBuffer` and has `typeof` equal to `"object"`).
-/
inductive JValue where
  | undef
  | null
  | boolv (b : Bool)
  | num (n : Int)
  | str (s : String)
  | arr (elems : List JValue)
  | obj (fields : List (String × JValue))
  | bytes (data : List Nat)
  | blob (data : List Nat)
  | buffer (data : List Nat)

/-- JavaScript truthiness of a value (`if (v)`). -/
def JValue.truthy : JValue → Bool
  | .undef => false
  | .null => false
  | .boolv b => b
  | .num n => n != 0
  | .str s => s ≠ ""
  | _ => true

/-- Whether `typeof v === "object"` holds in JavaScript. -/
def JValue.typeofObject : JValue → Bool
  | .null | .arr _ | .obj _ | .bytes _ | .blob _ | .buffer _ => true
  | _ => false

/--
Whether the content-type guard of `HttpClient.request` matches:
`typeof body === "string" || body instanceof ArrayBuffer || body instanceof Blob`.
A Node `Buffer` fails all three tests.
-/
def JValue.isStringOrABOrBlob : JValue → Bool
  | .str _ => true
  | .bytes _ => true
  | .blob _ => true
  | _ => false

mutual

/--
JavaScript string conversion for defined, non-null values, as performed by
`String(v)` and `v.toString()`: arrays join their elements with commas
(with `null`/`undefined` elements rendered as the empty string), plain
objects render as `[object Object]`, and a `Buffer` decodes its bytes.
-/
def JValue.toStrCore : JValue → String
  | .undef => ""
  | .null => ""
  | .boolv b => if b then "true" else "false"
  | .num n => toString n
  | .str s => s
  | .arr xs => JValue.joinCore xs
  | .obj _ => "[object Object]"
  | .bytes _ => "[object ArrayBuffer]"
  | .blob _ => "[object Blob]"
  | .buffer bs => String.mk (bs.map Char.ofNat)

/-- Comma join used by `Array.prototype.toString`. -/
def JValue.joinCore : List JValue → String
  | [] => ""
  | [v] => JValue.toStrCore v
  | v :: rest => JValue.toStrCore v ++ "," ++ JValue.joinCore rest

end

/--
JavaScript `v.toString()`: throws a `TypeError` (modelled as `none`) on
`undefined` and `null`, and otherwise produces the string form.
-/
def JValue.toStr : JValue → Option String
  | .undef => none
  | .null => none
  | v => some v.toStrCore

/-- Minimal JSON string escaping for `JSON.stringify`. -/
def jsonEscapeChar (c : Char) : String :=
  if c = '"' then "\\\"" else if c = '\\' then "\\\\" else String.singleton c

/-- Escape a string for inclusion in a JSON text. -/
def jsonEscape (s : String) : String :=
  String.join (s.data.map jsonEscapeChar)

mutual

/--
Model of `JSON.stringify` on the values this library sends.  Top-level
`undefined` is unreachable in `HttpClient.request` (the serialization branch
is guarded by `typeof body === "object"`); inside arrays `undefined` renders
as `null` and inside objects fields holding `undefined` are omitted, as in
JavaScript.  `ArrayBuffer`/`Blob` stringify to an empty object and a Node
`Buffer` stringifies through its `toJSON` method.
-/
def JValue.jstr : JValue → String
  | .undef => "null"
  | .null => "null"
  | .boolv b => if b then "true" else "false"
  | .num n => toString n
  | .str s => "\"" ++ jsonEscape s ++ "\""
  | .arr xs => "[" ++ JValue.jstrList xs ++ "]"
  | .obj fs => "\x7b" ++ JValue.jstrFields fs ++ "\x7d"
  | .bytes _ => "\x7b\x7d"
  | .blob _ => "\x7b\x7d"
  | .buffer bs =>
      "\x7b\"type\":\"Buffer\",\"data\":[" ++ String.intercalate "," (bs.map toString) ++ "]\x7d"

/-- Comma-joined JSON renderings of array elements. -/
def JValue.jstrList : List JValue → String
  | [] => ""
  | [v] => JValue.jstr v
  | v :: rest => JValue.jstr v ++ "," ++ JValue.jstrList rest

/-- Comma-joined JSON renderings of object fields, skipping `undefined`. -/
def JValue.jstrFields : List (String × JValue) → String
  | [] => ""
  | (_k, .undef) :: rest => JValue.jstrFields rest
  | [(k, v)] => "\"" ++ jsonEscape k ++ "\":" ++ JValue.jstr v
  | (k, v) :: rest =>
      "\"" ++ jsonEscape k ++ "\":" ++ JValue.jstr v ++ "," ++ JValue.jstrFields rest

end

/-- Strict equality test `v === "s"` between a JavaScript value and a string literal. -/
def JValue.isStrEq : JValue → String → Bool
  | .str t, s => t == s
  | _, _ => false

/--
A JavaScript plain object used as an options bag or query-parameter mapping:
an insertion-ordered association list.  JavaScript objects have unique keys;
theorems that need this carry a `Nodup` hypothesis on the key list.
-/
abbrev JObj := List (String × JValue)

/-- Property read `o[k]`: `undefined` when the key is absent. -/
def objGet : JObj → String → JValue
  | [], _ => .undef
  | (k, v) :: rest, key => if k = key then v else objGet rest key

/--
Property write `o[k] = v`: replaces the value in place when the key exists
(JavaScript objects keep the original insertion position), otherwise appends.
-/
def objSet : JObj → String → JValue → JObj
  | [], key, v => [(key, v)]
  | (k, w) :: rest, key, v =>
      if k = key then (key, v) :: rest else (k, w) :: objSet rest key v

/-- Object spread `\x7b...a, ...b\x7d`: later keys win, positions of existing keys kept. -/
def objSpread (a b : JObj) : JObj :=
  b.foldl (fun acc kv => objSet acc kv.1 kv.2) a

/-- Optional chaining read `o?.[k]` on a possibly-undefined options bag. -/
def jsOptGet (o : Option JObj) (key : String) : JValue :=
  match o with
  | none => .undef
  | some ps => objGet ps key

/-- Model of `Object.entries` for the values this library iterates over. -/
def jsEntries : JValue → List (String × JValue)
  | .obj fs => fs
  | .arr xs => (xs.enum).map (fun e => (toString e.1, e.2))
  | _ => []

/-- Header records (`Record<string, string>`), insertion ordered, unique keys. -/
abbrev HList := List (String × String)

/-- Header read `h[k]`: `undefined` (here `none`) when absent. -/
def hGet : HList → String → Option String
  | [], _ => none
  | (k, v) :: rest, key => if k = key then some v else hGet rest key

/-- Header write `h[k] = v` with JavaScript object update semantics. -/
def hSet : HList → String → String → HList
  | [], key, v => [(key, v)]
  | (k, w) :: rest, key, v =>
      if k = key then (key, v) :: rest else (k, w) :: hSet rest key v

/-- Header spread `\x7b...a, ...b\x7d`. -/
def hSpread (a b : HList) : HList :=
  b.foldl (fun acc kv => hSet acc kv.1 kv.2) a

/--
String conversion of each element of an array query value, in order, as done
by the `for (const v of value) url.searchParams.append(key, v.toString())`
loop; a `null` or `undefined` element throws a `TypeError`.
-/
def toStrAll : List JValue → Except String (List String)
  | [] => .ok []
  | x :: xs =>
      match x.toStr, toStrAll xs with
      | some s, .ok ss => .ok (s :: ss)
      | none, _ => .error ("TypeError: Cannot convert value to string")
      | some _, .error e => .error e

/--
The contribution of one key/value pair to the query string, one loop
iteration of `HttpClient.buildUrl` (src/client.ts lines 57-68): nothing for
a strictly `undefined` value, one entry per element (via each element's
`toString()`, which throws on `null`/`undefined` elements) for an array
value, and a single entry holding `value.toString()` (which throws on
`null`) for any other value.
-/
def entryOf (k : String) (v : JValue) : Except String (List (String × String)) :=
  match v with
  | .undef => .ok []
  | .arr xs =>
      (match toStrAll xs with
       | .ok ss => .ok (ss.map (fun s => (k, s)))
       | .error e => .error e)
  | v =>
      (match v.toStr with
       | some s => .ok [(k, s)]
       | none => .error ("TypeError: Cannot convert value to string"))

/--
The query-parameter loop of `HttpClient.buildUrl` (src/client.ts lines
56-69): concatenate the contribution of each key/value pair in insertion
order, stopping at the first thrown conversion error.
-/
def appendParams : JObj → Except String (List (String × String))
  | [] => .ok []
  | (k, v) :: rest =>
      match entryOf k v, appendParams rest with
      | .ok a, .ok es => .ok (a ++ es)
      | .error e, _ => .error e
      | .ok _, .error e => .error e

/--
A built request URL, modelled as the non-query part plus the ordered list of
appended query entries (percent-encoding during final serialization is not
modelled; claims speak about query entries).
-/
structure BuiltUrl where
  origin : String
  queryEntries : List (String × String)
deriving DecidableEq

/-- The `path.startsWith("http")` absolute-path test, modelled on character
lists so the kernel can evaluate it. -/
def startsWithHttp (s : String) : Bool :=
  s.data.take 4 == ("http").data

/--
Embedding of `HttpClient.buildUrl` (src/client.ts lines 51-72): prefix the
path with the base URL unless it is already absolute, then append query
entries from the parameter mapping.
-/
def buildUrl (baseUrl path : String) (params : Option JObj) : Except String BuiltUrl :=
  let origin := if startsWithHttp path then path else baseUrl ++ path
  match params with
  | none => .ok ⟨origin, []⟩
  | some ps =>
      match appendParams ps with
      | .ok es => .ok ⟨origin, es⟩
      | .error e => .error e

/-- The query entries of a built URL that carry the given key, in order. -/
def entriesFor (key : String) (es : List (String × String)) : List (String × String) :=
  es.filter (fun e => e.1 == key)

/--
Model of a platform `Response` object as handed back by the injected
network-call function.  `bodyText` is the body's text when the (once-only)
body read succeeds, `none` when reading the body stream fails; `jsonResult`
is the parse of that text when it is valid JSON; `bytesResult` is the body
as raw bytes for `arrayBuffer()`/`blob()` reads.
-/
structure FetchResponseM where
  ok : Bool
  status : Nat
  statusText : String
  contentLength : Option String
  bodyText : Option String
  jsonResult : Option JValue
  bytesResult : List Nat

/-- The body value placed on the request descriptor (`requestInit.body`). -/
inductive SentBody where
  | raw (v : JValue)
  | text (s : String)

/-- The request descriptor passed to the network-call function. -/
structure RequestInitM where
  method : String
  headers : HList
  body : Option SentBody

/-- Outcome of invoking the network-call function: a response, or a thrown transport error. -/
inductive FetchOutcome where
  | resp (r : FetchResponseM)
  | thrown (msg : String)

/-- The injectable network-call function (`FetchFn`). -/
def FetchFn := BuiltUrl → RequestInitM → FetchOutcome

/-- The `responseType` request option. -/
inductive ResponseType where
  | json
  | text
  | arraybuffer
  | blob

/-- The `FetchRequestOptions` bag as consumed by `HttpClient.request`:
query parameters, body (`undef` when absent), per-call headers, response shape. -/
structure ReqOptions where
  params : Option JObj
  body : JValue
  headers : HList
  responseType : ResponseType

/-- The transport-layer configuration held by `HttpClient`: base URL, default
headers and the injected network-call function. -/
structure HttpClientM where
  baseUrl : String
  defaultHeaders : HList
  fetchFn : FetchFn

/--
Header assembly of `HttpClient.request` (src/client.ts lines 96-113): merge
default and per-call headers (per-call wins), then, when a truthy body is
present and no `Content-Type` entry is set (absent or empty string), default
it to octet-stream for string/`ArrayBuffer`/`Blob` bodies and to JSON for
every other body.
-/
def assembleHeaders (defaultHeaders perCall : HList) (body : JValue) : HList :=
  let rh := hSpread defaultHeaders perCall
  if body.truthy && ((hGet rh ("Content-Type")).getD "" == "") then
    if body.isStringOrABOrBlob then
      hSet rh ("Content-Type") ("application/octet-stream")
    else
      hSet rh ("Content-Type") ("application/json")
  else rh

/-- Whether a value is strictly `undefined` (`body !== undefined` is its negation). -/
def JValue.isUndef : JValue → Bool
  | .undef => true
  | _ => false

/--
Body assembly of `HttpClient.request` (src/client.ts lines 122-131): when the
body is not strictly `undefined`, serialize it with `JSON.stringify` exactly
when the assembled `Content-Type` is `application/json` and
`typeof body === "object"`, otherwise attach it unchanged.
-/
def assembleBody (requestHeaders : HList) (body : JValue) : Option SentBody :=
  if body.isUndef then none
  else if (hGet requestHeaders ("Content-Type") == some ("application/json"))
      && body.typeofObject then
    some (.text body.jstr)
  else
    some (.raw body)

/-- Error message thrown on a non-2xx response (src/client.ts lines 135-140);
the body text is read best-effort, `"Unknown error"` replacing a failed read. -/
def httpErrMsg (r : FetchResponseM) : String :=
  "HTTP request failed: " ++ toString r.status ++ " " ++ r.statusText ++ "\n"
    ++ (r.bodyText.getD ("Unknown error"))

/--
Decoding of a successful response under the default `json` response shape
(src/client.ts lines 150-162).  When the `content-length` header is exactly
`"0"` the result is `null` without touching the body.  Otherwise the code
runs `await response.json()` and, in the `catch` branch, `await
response.text()`.  Per the WHATWG fetch specification, `response.json()`
consumes the body stream; when the body is not valid JSON the promise
rejects *after* the body has been read, so `bodyUsed` is `true` and the
fallback `response.text()` itself rejects with a `TypeError` ("Body is
unusable" in Node/undici, "body stream already read" in browsers).  The
model therefore succeeds with the parsed value when the body is valid JSON
and fails otherwise: a failed body read fails both calls, and a parse
failure makes the text fallback throw on the consumed body.
-/
def decodeJsonShape (r : FetchResponseM) : Except String JValue :=
  if r.contentLength == some ("0") then .ok .null
  else
    match r.bodyText with
    | none => .error ("TypeError: failed to read response body")
    | some _ =>
        match r.jsonResult with
        | some v => .ok v
        | none => .error ("TypeError: Body is unusable: Body has already been read")

/-- Response decoding per requested response shape (src/client.ts lines 142-162). -/
def decodeResp (rt : ResponseType) (r : FetchResponseM) : Except String JValue :=
  match rt with
  | .arraybuffer => .ok (.bytes r.bytesResult)
  | .blob => .ok (.blob r.bytesResult)
  | .text =>
      (match r.bodyText with
       | some s => .ok (.str s)
       | none => .error ("TypeError: failed to read response body"))
  | .json => decodeJsonShape r

/--
Embedding of `HttpClient.request` (src/client.ts lines 81-165): build the
URL, assemble headers and body, invoke the injected network-call function,
convert a thrown transport error or a non-2xx response into a raised error,
and decode a successful response per the requested shape.
-/
def HttpClient.request (c : HttpClientM) (method path : String) (o : ReqOptions) :
    Except String JValue :=
  match buildUrl c.baseUrl path o.params with
  | .error e => .error e
  | .ok url =>
      let rh := assembleHeaders c.defaultHeaders o.headers o.body
      let sb := assembleBody rh o.body
      match c.fetchFn url ⟨method, rh, sb⟩ with
      | .thrown m => .error m
      | .resp r => if r.ok then decodeResp o.responseType r else .error (httpErrMsg r)

/-- Request options carrying only `params` (the common `\x7b params \x7d` literal). -/
def pOpts (params : Option JObj) : ReqOptions := ⟨params, .undef, [], .json⟩

/-- Embedding of `HttpClient.get`. -/
def HttpClient.get (c : HttpClientM) (path : String) (o : ReqOptions) : Except String JValue :=
  HttpClient.request c ("GET") path o

/-- Embedding of `HttpClient.post` (options spread with the body, body wins). -/
def HttpClient.post (c : HttpClientM) (path : String) (body : JValue) (o : ReqOptions) :
    Except String JValue :=
  HttpClient.request c ("POST") path ⟨o.params, body, o.headers, o.responseType⟩

/-- Embedding of `HttpClient.put` (options spread with the body, body wins). -/
def HttpClient.put (c : HttpClientM) (path : String) (body : JValue) (o : ReqOptions) :
    Except String JValue :=
  HttpClient.request c ("PUT") path ⟨o.params, body, o.headers, o.responseType⟩

/-- Embedding of `HttpClient.delete`. -/
def HttpClient.delete (c : HttpClientM) (path : String) (o : ReqOptions) : Except String JValue :=
  HttpClient.request c ("DELETE") path o

/--
The `try \x7b await call; return true \x7d catch (e) \x7b console.error(e);
return false \x7d` pattern shared by every write-style operation: the result
is the returned boolean paired with the error logged to the console (`none`
when nothing was logged).  The pattern can never re-raise.
-/
def tryBool (r : Except String JValue) : Bool × Option String :=
  match r with
  | .ok _ => (true, none)
  | .error e => (false, some e)

/--
The `index` re-store block shared by `CatalogClient._prepareBlockingParams`
and `HealthClient._prepareParams`: re-store a truthy `index` option.
-/
def stepIndex (options params : JObj) : JObj :=
  if (objGet options ("index")).truthy then
    objSet params ("index") (objGet options ("index"))
  else params

/-- The `wait` re-store block of the two normalization helpers. -/
def stepWait (options params : JObj) : JObj :=
  if (objGet options ("wait")).truthy then
    objSet params ("wait") (objGet options ("wait"))
  else params

/--
The `consistency` translation block of the two normalization helpers: when
the option is truthy, set the `consistent` wire flag for `"consistent"`, the
`stale` wire flag for `"stale"`, nothing for any other value, and then unset
the `consistency` key itself.
-/
def stepConsistency (options params : JObj) : JObj :=
  if (objGet options ("consistency")).truthy then
    objSet
      (if (objGet options ("consistency")).isStrEq ("consistent") then
        objSet params ("consistent") (.boolv true)
      else if (objGet options ("consistency")).isStrEq ("stale") then
        objSet params ("stale") (.boolv true)
      else params)
      ("consistency") .undef
  else params

/--
The `nodeMeta` expansion block of the two normalization helpers: when the
option is a truthy object, store one `node-meta=<key>` parameter per entry
and unset the `nodeMeta` key itself.
-/
def stepNodeMeta (options params : JObj) : JObj :=
  if (objGet options ("nodeMeta")).truthy && (objGet options ("nodeMeta")).typeofObject then
    objSet
      ((jsEntries (objGet options ("nodeMeta"))).foldl
        (fun ps e => objSet ps ("node-meta=" ++ e.1) e.2) params)
      ("nodeMeta") .undef
  else params

/-- The `passing` re-store block of `HealthClient._prepareParams`. -/
def stepPassing (options params : JObj) : JObj :=
  if (objGet options ("passing")).truthy then
    objSet params ("passing") (.boolv true)
  else params

/-- The `mergeCentralConfig` renaming block of `HealthClient._prepareParams`:
store the literal `merge-central-config` wire flag and unset the camel-cased
option key. -/
def stepMergeCC (options params : JObj) : JObj :=
  if (objGet options ("mergeCentralConfig")).truthy then
    objSet (objSet params ("merge-central-config") (.boolv true))
      ("mergeCentralConfig") .undef
  else params

/--
Embedding of `CatalogClient._prepareBlockingParams` (src/client.ts lines
629-661): copy the options, then apply the `index`, `wait`, `consistency`
and `nodeMeta` blocks in the order of the source.
-/
def CatalogClient.prepareBlockingParams (options : Option JObj) : JObj :=
  match options with
  | none => []
  | some options =>
      stepNodeMeta options
        (stepConsistency options
          (stepWait options (stepIndex options (objSpread [] options))))

/--
Embedding of `HealthClient._prepareParams` (src/client.ts lines 772-813):
identical to the catalog preparation, followed by the `passing` and
`mergeCentralConfig` blocks of the source.
-/
def HealthClient.prepareParams (options : Option JObj) : JObj :=
  match options with
  | none => []
  | some options =>
      stepMergeCC options
        (stepPassing options
          (stepNodeMeta options
            (stepConsistency options
              (stepWait options (stepIndex options (objSpread [] options))))))

/--
JavaScript property access `v.key`: throws a `TypeError` on `null` and
`undefined`, reads the field of an object, and yields `undefined` on other
primitives.
-/
def jsGetProp (v : JValue) (key : String) : Except String JValue :=
  match v with
  | .null => .error ("TypeError: Cannot read properties of null")
  | .undef => .error ("TypeError: Cannot read properties of undefined")
  | .obj fs => .ok (objGet fs key)
  | _ => .ok (JValue.undef)

/--
The response reshaping shared by the singular read operations
(`session.info`, `session.renew`, `coordinate.node`, `query.get`): an
untruthy or empty-array response becomes `null`, a non-empty array collapses
to its first element, anything else passes through.
-/
def collapseSingleton (response : JValue) : JValue :=
  if !response.truthy
      || (match response with | .arr xs => xs.isEmpty | _ => false) then
    .null
  else
    match response with
    | .arr (x :: _) => x
    | v => v

/-- JavaScript spread `\x7b...options\x7d` of a possibly-undefined options bag. -/
def jsSpreadOpt (o : Option JObj) : JObj :=
  objSpread [] (o.getD [])

/-- Embedding of `ConsulAgent.self`. -/
def ConsulAgent.self (c : HttpClientM) (options : Option JObj) : Except String JValue :=
  HttpClient.get c ("/agent/self") (pOpts options)

/-- Embedding of `ConsulAgent.members`. -/
def ConsulAgent.members (c : HttpClientM) (options : Option JObj) : Except String JValue :=
  HttpClient.get c ("/agent/members") (pOpts options)

/-- Embedding of `ConsulAgent.serviceRegister` (src/client.ts lines 263-275). -/
def ConsulAgent.serviceRegister (c : HttpClientM) (service : JValue) (options : Option JObj) :
    Bool × Option String :=
  tryBool (HttpClient.put c ("/agent/service/register") service (pOpts options))

/-- Embedding of `ConsulAgent.serviceDeregister`. -/
def ConsulAgent.serviceDeregister (c : HttpClientM) (serviceId : String)
    (options : Option JObj) : Bool × Option String :=
  tryBool (HttpClient.put c ("/agent/service/deregister/" ++ serviceId) .null (pOpts options))

/-- Embedding of `ConsulAgent.services`. -/
def ConsulAgent.services (c : HttpClientM) (options : Option JObj) : Except String JValue :=
  HttpClient.get c ("/agent/services") (pOpts options)

/-- Embedding of `ConsulAgent.checkRegister`. -/
def ConsulAgent.checkRegister (c : HttpClientM) (check : JValue) (options : Option JObj) :
    Bool × Option String :=
  tryBool (HttpClient.put c ("/agent/check/register") check (pOpts options))

/-- Embedding of `ConsulAgent.checkDeregister`. -/
def ConsulAgent.checkDeregister (c : HttpClientM) (checkId : String) (options : Option JObj) :
    Bool × Option String :=
  tryBool (HttpClient.put c ("/agent/check/deregister/" ++ checkId) .null (pOpts options))

/-- Embedding of `ConsulAgent.checks`. -/
def ConsulAgent.checks (c : HttpClientM) (options : Option JObj) : Except String JValue :=
  HttpClient.get c ("/agent/checks") (pOpts options)

/-- Embedding of `ConsulAgent.join`. -/
def ConsulAgent.join (c : HttpClientM) (address : String) (options : Option JObj) :
    Bool × Option String :=
  tryBool (HttpClient.put c ("/agent/join/" ++ address) .null (pOpts options))

/-- Embedding of `ConsulAgent.leave`. -/
def ConsulAgent.leave (c : HttpClientM) (options : Option JObj) : Bool × Option String :=
  tryBool (HttpClient.put c ("/agent/leave") .null (pOpts options))

/-- Embedding of `ConsulAgent.reload`. -/
def ConsulAgent.reload (c : HttpClientM) (options : Option JObj) : Bool × Option String :=
  tryBool (HttpClient.put c ("/agent/reload") .null (pOpts options))

/-- Embedding of `ConsulAgent.metrics`. -/
def ConsulAgent.metrics (c : HttpClientM) (options : Option JObj) : Except String JValue :=
  HttpClient.get c ("/agent/metrics") (pOpts options)

/-- Embedding of `ConsulAgent.checkUpdate` (src/client.ts lines 430-447); the
body is the object literal `\x7b Status: state, Output: options?.note \x7d`. -/
def ConsulAgent.checkUpdate (c : HttpClientM) (checkId : String) (state : String)
    (options : Option JObj) : Bool × Option String :=
  tryBool (HttpClient.put c ("/agent/check/update/" ++ checkId)
    (.obj [(("Status"), .str state), (("Output"), jsOptGet options ("note"))])
    (pOpts options))

/-- Embedding of `ConsulAgent.connect`. -/
def ConsulAgent.connect (c : HttpClientM) (options : Option JObj) : Except String JValue :=
  HttpClient.get c ("/agent/connect") (pOpts options)

/-- Embedding of `CatalogClient.register` (src/client.ts lines 483-495). -/
def CatalogClient.register (c : HttpClientM) (registration : JValue) (options : Option JObj) :
    Bool × Option String :=
  tryBool (HttpClient.put c ("/catalog/register") registration (pOpts options))

/-- Embedding of `CatalogClient.deregister`. -/
def CatalogClient.deregister (c : HttpClientM) (deregistration : JValue)
    (options : Option JObj) : Bool × Option String :=
  tryBool (HttpClient.put c ("/catalog/deregister") deregistration (pOpts options))

/-- Embedding of `CatalogClient.datacenters`. -/
def CatalogClient.datacenters (c : HttpClientM) (options : Option JObj) :
    Except String JValue :=
  HttpClient.get c ("/catalog/datacenters") (pOpts options)

/-- Embedding of `CatalogClient.nodes` (src/client.ts lines 532-541). -/
def CatalogClient.nodes (c : HttpClientM) (options : Option JObj) : Except String JValue :=
  HttpClient.get c ("/catalog/nodes")
    (pOpts (some (CatalogClient.prepareBlockingParams options)))

/-- Embedding of `CatalogClient.services`. -/
def CatalogClient.services (c : HttpClientM) (options : Option JObj) : Except String JValue :=
  HttpClient.get c ("/catalog/services")
    (pOpts (some (CatalogClient.prepareBlockingParams options)))

/-- Embedding of `CatalogClient.service`. -/
def CatalogClient.service (c : HttpClientM) (service : String) (options : Option JObj) :
    Except String JValue :=
  HttpClient.get c ("/catalog/service/" ++ service)
    (pOpts (some (CatalogClient.prepareBlockingParams options)))

/-- Embedding of `CatalogClient.connect`. -/
def CatalogClient.connect (c : HttpClientM) (service : String) (options : Option JObj) :
    Except String JValue :=
  HttpClient.get c ("/catalog/connect/" ++ service)
    (pOpts (some (CatalogClient.prepareBlockingParams options)))

/-- Embedding of `CatalogClient.nodeServices`. -/
def CatalogClient.nodeServices (c : HttpClientM) (node : String) (options : Option JObj) :
    Except String JValue :=
  HttpClient.get c ("/catalog/node/" ++ node)
    (pOpts (some (CatalogClient.prepareBlockingParams options)))

/-- Embedding of `CatalogClient.gatewayServices`. -/
def CatalogClient.gatewayServices (c : HttpClientM) (gateway : String)
    (options : Option JObj) : Except String JValue :=
  HttpClient.get c ("/catalog/gateway-services/" ++ gateway)
    (pOpts (some (CatalogClient.prepareBlockingParams options)))

/-- Embedding of `HealthClient.node`. -/
def HealthClient.node (c : HttpClientM) (node : String) (options : Option JObj) :
    Except String JValue :=
  HttpClient.get c ("/health/node/" ++ node)
    (pOpts (some (HealthClient.prepareParams options)))

/-- Embedding of `HealthClient.checks`. -/
def HealthClient.checks (c : HttpClientM) (service : String) (options : Option JObj) :
    Except String JValue :=
  HttpClient.get c ("/health/checks/" ++ service)
    (pOpts (some (HealthClient.prepareParams options)))

/-- Embedding of `HealthClient.service`. -/
def HealthClient.service (c : HttpClientM) (service : String) (options : Option JObj) :
    Except String JValue :=
  HttpClient.get c ("/health/service/" ++ service)
    (pOpts (some (HealthClient.prepareParams options)))

/-- Embedding of `HealthClient.connect`. -/
def HealthClient.connect (c : HttpClientM) (service : String) (options : Option JObj) :
    Except String JValue :=
  HttpClient.get c ("/health/connect/" ++ service)
    (pOpts (some (HealthClient.prepareParams options)))

/-- Embedding of `HealthClient.ingress`. -/
def HealthClient.ingress (c : HttpClientM) (service : String) (options : Option JObj) :
    Except String JValue :=
  HttpClient.get c ("/health/ingress/" ++ service)
    (pOpts (some (HealthClient.prepareParams options)))

/-- Embedding of `HealthClient.state`. -/
def HealthClient.state (c : HttpClientM) (state : String) (options : Option JObj) :
    Except String JValue :=
  HttpClient.get c ("/health/state/" ++ state)
    (pOpts (some (HealthClient.prepareParams options)))

/--
Embedding of `KVClient.get` (src/client.ts lines 839-865): the options are
forwarded as query parameters unchanged (`\x7b...options\x7d`); any request
failure is swallowed to `null` without logging; an untruthy or empty-array
response yields `null`; with the `raw` option the response passes through;
otherwise an array response collapses to its first element.
-/
def KVClient.get (c : HttpClientM) (key : String) (options : Option JObj) : JValue :=
  match HttpClient.get c ("/kv/" ++ key) (pOpts (some (jsSpreadOpt options))) with
  | .error _ => .null
  | .ok response =>
      if !response.truthy
          || (match response with | .arr xs => xs.isEmpty | _ => false) then
        .null
      else if (jsOptGet options ("raw")).truthy then response
      else
        match response with
        | .arr (x :: _) => x
        | v => v

/-- Embedding of `KVClient.keys` (failures and absent responses swallowed to `[]`). -/
def KVClient.keys (c : HttpClientM) (pfx : String) (options : Option JObj) : JValue :=
  match HttpClient.get c ("/kv/" ++ pfx)
      (pOpts (some (objSet (jsSpreadOpt options) ("keys") (.boolv true)))) with
  | .error _ => .arr []
  | .ok response => if !response.truthy then .arr [] else response

/-- Embedding of `KVClient.list` (failures and absent responses swallowed to `[]`). -/
def KVClient.list (c : HttpClientM) (pfx : String) (options : Option JObj) : JValue :=
  match HttpClient.get c ("/kv/" ++ pfx)
      (pOpts (some (objSet (jsSpreadOpt options) ("recurse") (.boolv true)))) with
  | .error _ => .arr []
  | .ok response => if !response.truthy then .arr [] else response

/-- Embedding of `KVClient.put` (src/client.ts lines 930-948). -/
def KVClient.put (c : HttpClientM) (key : String) (value : JValue) (options : Option JObj) :
    Bool × Option String :=
  tryBool (HttpClient.put c ("/kv/" ++ key) value (pOpts options))

/-- Embedding of `KVClient.delete`. -/
def KVClient.delete (c : HttpClientM) (key : String) (options : Option JObj) :
    Bool × Option String :=
  tryBool (HttpClient.delete c ("/kv/" ++ key) (pOpts options))

/-- Embedding of `SessionClient.create`: returns the `ID` field of the decoded
response object, propagating failures. -/
def SessionClient.create (c : HttpClientM) (session : JValue) (options : Option JObj) :
    Except String JValue :=
  match HttpClient.put c ("/session/create") session (pOpts options) with
  | .error e => .error e
  | .ok response => jsGetProp response ("ID")

/-- Embedding of `SessionClient.destroy`. -/
def SessionClient.destroy (c : HttpClientM) (sessionId : String) (options : Option JObj) :
    Bool × Option String :=
  tryBool (HttpClient.put c ("/session/destroy/" ++ sessionId) .null (pOpts options))

/-- Embedding of `SessionClient.info`: singular read, failures logged and
swallowed to `null`, one-element arrays collapsed. -/
def SessionClient.info (c : HttpClientM) (sessionId : String) (options : Option JObj) :
    JValue × Option String :=
  match HttpClient.get c ("/session/info/" ++ sessionId)
      (pOpts (some (jsSpreadOpt options))) with
  | .error e => (.null, some e)
  | .ok response => (collapseSingleton response, none)

/-- Embedding of `SessionClient.node`. -/
def SessionClient.node (c : HttpClientM) (node : String) (options : Option JObj) :
    Except String JValue :=
  HttpClient.get c ("/session/node/" ++ node) (pOpts (some (jsSpreadOpt options)))

/-- Embedding of `SessionClient.list`. -/
def SessionClient.list (c : HttpClientM) (options : Option JObj) : Except String JValue :=
  HttpClient.get c ("/session/list") (pOpts (some (jsSpreadOpt options)))

/-- Embedding of `SessionClient.renew`: failures logged and swallowed to
`null`, one-element arrays collapsed. -/
def SessionClient.renew (c : HttpClientM) (sessionId : String) (options : Option JObj) :
    JValue × Option String :=
  match HttpClient.put c ("/session/renew/" ++ sessionId) .null (pOpts options) with
  | .error e => (.null, some e)
  | .ok response => (collapseSingleton response, none)

/-- Embedding of `EventClient.fire` (src/client.ts lines 1130-1155). -/
def EventClient.fire (c : HttpClientM) (name : String) (payload : JValue)
    (options : Option JObj) : Except String JValue :=
  let params := jsSpreadOpt options
  let params :=
    if (jsOptGet options ("node")).truthy then
      objSet params ("node") (jsOptGet options ("node"))
    else params
  let params :=
    if (jsOptGet options ("service")).truthy then
      objSet params ("service") (jsOptGet options ("service"))
    else params
  let params :=
    if (jsOptGet options ("tag")).truthy then
      objSet params ("tag") (jsOptGet options ("tag"))
    else params
  HttpClient.put c ("/event/fire/" ++ name) payload (pOpts (some params))

/-- Embedding of `EventClient.list`. -/
def EventClient.list (c : HttpClientM) (options : Option JObj) : Except String JValue :=
  HttpClient.get c ("/event/list") (pOpts (some (jsSpreadOpt options)))

/-- Embedding of `StatusClient.leader`. -/
def StatusClient.leader (c : HttpClientM) (options : Option JObj) : Except String JValue :=
  HttpClient.get c ("/status/leader") (pOpts options)

/-- Embedding of `StatusClient.peers`. -/
def StatusClient.peers (c : HttpClientM) (options : Option JObj) : Except String JValue :=
  HttpClient.get c ("/status/peers") (pOpts options)

/-- Embedding of `CoordinateClient.nodes`. -/
def CoordinateClient.nodes (c : HttpClientM) (options : Option JObj) : Except String JValue :=
  HttpClient.get c ("/coordinate/nodes") (pOpts (some (jsSpreadOpt options)))

/-- Embedding of `CoordinateClient.node`: singular read, failures logged and
swallowed to `null`, one-element arrays collapsed. -/
def CoordinateClient.node (c : HttpClientM) (node : String) (options : Option JObj) :
    JValue × Option String :=
  match HttpClient.get c ("/coordinate/node/" ++ node)
      (pOpts (some (jsSpreadOpt options))) with
  | .error e => (.null, some e)
  | .ok response => (collapseSingleton response, none)

/-- Embedding of `CoordinateClient.datacenters`. -/
def CoordinateClient.datacenters (c : HttpClientM) (options : Option JObj) :
    Except String JValue :=
  HttpClient.get c ("/coordinate/datacenters") (pOpts options)

/-- Embedding of `QueryClient.create`. -/
def QueryClient.create (c : HttpClientM) (query : JValue) (options : Option JObj) :
    Except String JValue :=
  HttpClient.post c ("/query") query (pOpts options)

/-- Embedding of `QueryClient.update` (src/client.ts lines 1308-1321). -/
def QueryClient.update (c : HttpClientM) (queryId : String) (query : JValue)
    (options : Option JObj) : Bool × Option String :=
  tryBool (HttpClient.put c ("/query/" ++ queryId) query (pOpts options))

/-- Embedding of `QueryClient.list`. -/
def QueryClient.list (c : HttpClientM) (options : Option JObj) : Except String JValue :=
  HttpClient.get c ("/query") (pOpts options)

/-- Embedding of `QueryClient.get`: singular read, failures logged and
swallowed to `null`, one-element arrays collapsed. -/
def QueryClient.get (c : HttpClientM) (queryId : String) (options : Option JObj) :
    JValue × Option String :=
  match HttpClient.get c ("/query/" ++ queryId) (pOpts options) with
  | .error e => (.null, some e)
  | .ok response => (collapseSingleton response, none)

/-- Embedding of `QueryClient.delete`. -/
def QueryClient.delete (c : HttpClientM) (queryId : String) (options : Option JObj) :
    Bool × Option String :=
  tryBool (HttpClient.delete c ("/query/" ++ queryId) (pOpts options))

/-- Embedding of `QueryClient.execute`. -/
def QueryClient.execute (c : HttpClientM) (queryIdOrName : String) (options : Option JObj) :
    Except String JValue :=
  HttpClient.get c ("/query/" ++ queryIdOrName ++ "/execute") (pOpts options)

/-- Embedding of `TxnClient.create`: the operations array is sent as the PUT
body and the transaction response is returned without reshaping. -/
def TxnClient.create (c : HttpClientM) (operations : JValue) (options : Option JObj) :
    Except String JValue :=
  HttpClient.put c ("/txn") operations (pOpts options)

/-- Embedding of `SnapshotClient.save`: requests the raw-bytes response shape. -/
def SnapshotClient.save (c : HttpClientM) (options : Option JObj) : Except String JValue :=
  HttpClient.request c ("GET") ("/snapshot") ⟨options, .undef, [], .arraybuffer⟩

/-- Embedding of `SnapshotClient.restore` (src/client.ts lines 1457-1472):
sends the snapshot bytes with an explicit octet-stream content type. -/
def SnapshotClient.restore (c : HttpClientM) (snapshot : JValue) (options : Option JObj) :
    Bool × Option String :=
  tryBool (HttpClient.put c ("/snapshot") snapshot
    ⟨options, .undef, [((("Content-Type")), ("application/octet-stream"))], .json⟩)

/-- The `ConsulClientOptions` constructor options (src/client.ts lines
1478-1497); `dc`, `namespace` and `partition` are accepted but never read by
the constructor. -/
structure ConsulClientOptionsM where
  host : Option String
  port : Option Nat
  secure : Option Bool
  token : Option String
  headers : Option HList
  fetchFnOpt : Option FetchFn

/-- JavaScript `a || b` for an optional string option. -/
def jsOrStr (v : Option String) (dflt : String) : String :=
  match v with
  | some s => if s = "" then dflt else s
  | none => dflt

/-- JavaScript `a || b` for an optional numeric option. -/
def jsOrNat (v : Option Nat) (dflt : Nat) : Nat :=
  match v with
  | some n => if n = 0 then dflt else n
  | none => dflt

/--
Embedding of the `ConsulClient` constructor (src/client.ts lines 1534-1564):
defaults `host` to `localhost`, `port` to `8500` and the protocol to `http`
unless `secure` is set; copies the extra headers and adds the
`X-Consul-Token` header when a token is configured; and falls back to the
platform-native network call (`native`) when none is injected.  The returned
`HttpClientM` is the configuration shared by every endpoint group.
-/
def ConsulClient.build (native : FetchFn) (options : ConsulClientOptionsM) : HttpClientM :=
  let host := jsOrStr options.host ("localhost")
  let port := jsOrNat options.port 8500
  let secure := (options.secure.getD false)
  let protocol := if secure then "https" else "http"
  let baseUrl := protocol ++ "://" ++ host ++ ":" ++ toString port ++ "/v1"
  let headers := hSpread [] (options.headers.getD [])
  let headers :=
    match options.token with
    | some t => if t = "" then headers else hSet headers ("X-Consul-Token") t
    | none => headers
  ⟨baseUrl, headers, options.fetchFnOpt.getD native⟩

/--
One call to any operation of any endpoint group, with its arguments.  This
enumerates the complete public API surface built on the shared transport
configuration.
-/
inductive ApiCall where
  | agentSelf (options : Option JObj)
  | agentMembers (options : Option JObj)
  | agentServiceRegister (service : JValue) (options : Option JObj)
  | agentServiceDeregister (serviceId : String) (options : Option JObj)
  | agentServices (options : Option JObj)
  | agentCheckRegister (check : JValue) (options : Option JObj)
  | agentCheckDeregister (checkId : String) (options : Option JObj)
  | agentChecks (options : Option JObj)
  | agentJoin (address : String) (options : Option JObj)
  | agentLeave (options : Option JObj)
  | agentReload (options : Option JObj)
  | agentMetrics (options : Option JObj)
  | agentCheckUpdate (checkId : String) (state : String) (options : Option JObj)
  | agentConnect (options : Option JObj)
  | catalogRegister (registration : JValue) (options : Option JObj)
  | catalogDeregister (deregistration : JValue) (options : Option JObj)
  | catalogDatacenters (options : Option JObj)
  | catalogNodes (options : Option JObj)
  | catalogServices (options : Option JObj)
  | catalogService (service : String) (options : Option JObj)
  | catalogConnect (service : String) (options : Option JObj)
  | catalogNodeServices (node : String) (options : Option JObj)
  | catalogGatewayServices (gateway : String) (options : Option JObj)
  | healthNode (node : String) (options : Option JObj)
  | healthChecks (service : String) (options : Option JObj)
  | healthService (service : String) (options : Option JObj)
  | healthConnect (service : String) (options : Option JObj)
  | healthIngress (service : String) (options : Option JObj)
  | healthState (state : String) (options : Option JObj)
  | kvGet (key : String) (options : Option JObj)
  | kvKeys (pfx : String) (options : Option JObj)
  | kvList (pfx : String) (options : Option JObj)
  | kvPut (key : String) (value : JValue) (options : Option JObj)
  | kvDelete (key : String) (options : Option JObj)
  | sessionCreate (session : JValue) (options : Option JObj)
  | sessionDestroy (sessionId : String) (options : Option JObj)
  | sessionInfo (sessionId : String) (options : Option JObj)
  | sessionNode (node : String) (options : Option JObj)
  | sessionList (options : Option JObj)
  | sessionRenew (sessionId : String) (options : Option JObj)
  | eventFire (name : String) (payload : JValue) (options : Option JObj)
  | eventList (options : Option JObj)
  | statusLeader (options : Option JObj)
  | statusPeers (options : Option JObj)
  | coordinateNodes (options : Option JObj)
  | coordinateNode (node : String) (options : Option JObj)
  | coordinateDatacenters (options : Option JObj)
  | queryCreate (query : JValue) (options : Option JObj)
  | queryUpdate (queryId : String) (query : JValue) (options : Option JObj)
  | queryList (options : Option JObj)
  | queryGet (queryId : String) (options : Option JObj)
  | queryDelete (queryId : String) (options : Option JObj)
  | queryExecute (queryIdOrName : String) (options : Option JObj)
  | txnCreate (operations : JValue) (options : Option JObj)
  | snapshotSave (options : Option JObj)
  | snapshotRestore (snapshot : JValue) (options : Option JObj)

/-- The result shapes of the API surface: propagating reads, boolean-convention
writes, null-swallowing singular reads, and silently-swallowing plain values. -/
inductive ApiResult where
  | raised (r : Except String JValue)
  | flag (r : Bool × Option String)
  | nullable (r : JValue × Option String)
  | plain (r : JValue)

/--
Run one API call against the shared configuration with explicit state
passing.  Every method body in the source only reads the configuration
fields (`_baseUrl`, `_defaultHeaders`, `_fetchFn`) and never assigns to
them, so the state produced by each branch is the incoming configuration
itself; this is the translation of the absence of any mutating statement.
-/
def runApiSt (c : HttpClientM) : ApiCall → ApiResult × HttpClientM
  | .agentSelf o => (.raised (ConsulAgent.self c o), c)
  | .agentMembers o => (.raised (ConsulAgent.members c o), c)
  | .agentServiceRegister s o => (.flag (ConsulAgent.serviceRegister c s o), c)
  | .agentServiceDeregister s o => (.flag (ConsulAgent.serviceDeregister c s o), c)
  | .agentServices o => (.raised (ConsulAgent.services c o), c)
  | .agentCheckRegister ch o => (.flag (ConsulAgent.checkRegister c ch o), c)
  | .agentCheckDeregister ch o => (.flag (ConsulAgent.checkDeregister c ch o), c)
  | .agentChecks o => (.raised (ConsulAgent.checks c o), c)
  | .agentJoin a o => (.flag (ConsulAgent.join c a o), c)
  | .agentLeave o => (.flag (ConsulAgent.leave c o), c)
  | .agentReload o => (.flag (ConsulAgent.reload c o), c)
  | .agentMetrics o => (.raised (ConsulAgent.metrics c o), c)
  | .agentCheckUpdate ch st o => (.flag (ConsulAgent.checkUpdate c ch st o), c)
  | .agentConnect o => (.raised (ConsulAgent.connect c o), c)
  | .catalogRegister r o => (.flag (CatalogClient.register c r o), c)
  | .catalogDeregister d o => (.flag (CatalogClient.deregister c d o), c)
  | .catalogDatacenters o => (.raised (CatalogClient.datacenters c o), c)
  | .catalogNodes o => (.raised (CatalogClient.nodes c o), c)
  | .catalogServices o => (.raised (CatalogClient.services c o), c)
  | .catalogService s o => (.raised (CatalogClient.service c s o), c)
  | .catalogConnect s o => (.raised (CatalogClient.connect c s o), c)
  | .catalogNodeServices n o => (.raised (CatalogClient.nodeServices c n o), c)
  | .catalogGatewayServices g o => (.raised (CatalogClient.gatewayServices c g o), c)
  | .healthNode n o => (.raised (HealthClient.node c n o), c)
  | .healthChecks s o => (.raised (HealthClient.checks c s o), c)
  | .healthService s o => (.raised (HealthClient.service c s o), c)
  | .healthConnect s o => (.raised (HealthClient.connect c s o), c)
  | .healthIngress s o => (.raised (HealthClient.ingress c s o), c)
  | .healthState s o => (.raised (HealthClient.state c s o), c)
  | .kvGet k o => (.plain (KVClient.get c k o), c)
  | .kvKeys p o => (.plain (KVClient.keys c p o), c)
  | .kvList p o => (.plain (KVClient.list c p o), c)
  | .kvPut k v o => (.flag (KVClient.put c k v o), c)
  | .kvDelete k o => (.flag (KVClient.delete c k o), c)
  | .sessionCreate s o => (.raised (SessionClient.create c s o), c)
  | .sessionDestroy s o => (.flag (SessionClient.destroy c s o), c)
  | .sessionInfo s o => (.nullable (SessionClient.info c s o), c)
  | .sessionNode n o => (.raised (SessionClient.node c n o), c)
  | .sessionList o => (.raised (SessionClient.list c o), c)
  | .sessionRenew s o => (.nullable (SessionClient.renew c s o), c)
  | .eventFire n p o => (.raised (EventClient.fire c n p o), c)
  | .eventList o => (.raised (EventClient.list c o), c)
  | .statusLeader o => (.raised (StatusClient.leader c o), c)
  | .statusPeers o => (.raised (StatusClient.peers c o), c)
  | .coordinateNodes o => (.raised (CoordinateClient.nodes c o), c)
  | .coordinateNode n o => (.nullable (CoordinateClient.node c n o), c)
  | .coordinateDatacenters o => (.raised (CoordinateClient.datacenters c o), c)
  | .queryCreate q o => (.raised (QueryClient.create c q o), c)
  | .queryUpdate i q o => (.flag (QueryClient.update c i q o), c)
  | .queryList o => (.raised (QueryClient.list c o), c)
  | .queryGet i o => (.nullable (QueryClient.get c i o), c)
  | .queryDelete i o => (.flag (QueryClient.delete c i o), c)
  | .queryExecute i o => (.raised (QueryClient.execute c i o), c)
  | .txnCreate ops o => (.raised (TxnClient.create c ops o), c)
  | .snapshotSave o => (.raised (SnapshotClient.save c o), c)
  | .snapshotRestore s o => (.flag (SnapshotClient.restore c s o), c)

theorem objGet_objSet_self (ps : JObj) (k : String) (v : JValue) :
    objGet (objSet ps k v) k = v := by
  induction ps with
  | nil => simp [objSet, objGet]
  | cons hd t ih =>
      by_cases h : hd.1 = k
      · simp [objSet, h, objGet]
      · simp [objSet, h, objGet, ih]

theorem objGet_objSet_ne (ps : JObj) (k k2 : String) (v : JValue) (h : k ≠ k2) :
    objGet (objSet ps k v) k2 = objGet ps k2 := by
  induction ps with
  | nil => simp [objSet, objGet, h]
  | cons hd t ih =>
      by_cases hh : hd.1 = k
      · simp [objSet, hh, objGet, h]
      · simp only [objSet, hh, if_neg hh]
        by_cases h2 : hd.1 = k2
        · simp [objGet, h2]
        · simp [objGet, h2, ih]

theorem keys_objSet (ps : JObj) (k : String) (v : JValue) :
    (objSet ps k v).map Prod.fst =
      if k ∈ ps.map Prod.fst then ps.map Prod.fst else ps.map Prod.fst ++ [k] := by
  induction ps with
  | nil => simp [objSet]
  | cons hd t ih =>
      by_cases h : hd.1 = k
      · simp [objSet, h]
      · have hne : k ≠ hd.1 := fun he => h he.symm
        by_cases hm : k ∈ t.map Prod.fst <;> simp [objSet, h, ih, hne, hm]

theorem nodup_keys_objSet (ps : JObj) (k : String) (v : JValue)
    (h : (ps.map Prod.fst).Nodup) : ((objSet ps k v).map Prod.fst).Nodup := by
  rw [keys_objSet]
  by_cases hm : k ∈ ps.map Prod.fst
  · simpa [hm] using h
  · simp [hm, List.nodup_append, h, hm]

theorem objSet_of_not_mem (ps : JObj) (k : String) (v : JValue)
    (h : k ∉ ps.map Prod.fst) : objSet ps k v = ps ++ [(k, v)] := by
  induction ps with
  | nil => simp [objSet]
  | cons hd t ih =>
      simp only [List.map_cons, List.mem_cons] at h
      push_neg at h
      have h1 : hd.1 ≠ k := fun he => h.1 he.symm
      simp [objSet, h1, ih h.2]

theorem objSpread_of_disjoint (ps : JObj) : ∀ acc : JObj,
    (∀ k ∈ ps.map Prod.fst, k ∉ acc.map Prod.fst) → (ps.map Prod.fst).Nodup →
    objSpread acc ps = acc ++ ps := by
  induction ps with
  | nil => intro acc _ _; simp [objSpread]
  | cons hd t ih =>
      intro acc hdisj hnd
      simp only [List.map_cons, List.nodup_cons] at hnd
      have hhd : hd.1 ∉ acc.map Prod.fst := hdisj hd.1 (by simp)
      have hstep : objSpread acc (hd :: t) = objSpread (objSet acc hd.1 hd.2) t := by
        simp [objSpread]
      rw [hstep, objSet_of_not_mem acc hd.1 hd.2 hhd]
      have := ih (acc ++ [(hd.1, hd.2)]) ?_ hnd.2
      · simpa using this
      · intro k hk
        simp only [List.map_append, List.mem_append, List.map_cons, List.map_nil]
        rintro (hka | hkh)
        · exact hdisj k (by simp [hk]) hka
        · simp only [List.mem_singleton] at hkh
          exact hnd.1 (by simpa [hkh] using hk)

theorem objSpread_nil (ps : JObj) (hnd : (ps.map Prod.fst).Nodup) :
    objSpread [] ps = ps := by
  simpa using objSpread_of_disjoint ps [] (by simp) hnd

/--
The query entries that one binding contributes under `appendParams`: nothing
for `undefined`, one entry per stringifiable element for an array, one entry
for anything else with a string form.
-/
def expectedEntries (key : String) : JValue → List (String × String)
  | .undef => []
  | .arr xs => (xs.filterMap JValue.toStr).map (fun s => (key, s))
  | v =>
      match v.toStr with
      | some s => [(key, s)]
      | none => []

theorem toStrAll_ok_filterMap (xs : List JValue) (ss : List String)
    (h : toStrAll xs = .ok ss) : xs.filterMap JValue.toStr = ss := by
  induction xs generalizing ss with
  | nil => simp [toStrAll] at h; simp [h]
  | cons x t ih =>
      simp only [toStrAll] at h
      cases hx : x.toStr with
      | none => rw [hx] at h; exact absurd h (by simp)
      | some s =>
          rw [hx] at h
          cases ht : toStrAll t with
          | error e => rw [ht] at h; exact absurd h (by simp)
          | ok ss2 =>
              rw [ht] at h
              cases h
              simp [List.filterMap_cons, hx, ih ss2 ht]

theorem toStrAll_ok_length (xs : List JValue) (ss : List String)
    (h : toStrAll xs = .ok ss) : ss.length = xs.length := by
  have := toStrAll_ok_filterMap xs ss h
  induction xs generalizing ss with
  | nil => simp [toStrAll] at h; simp [h]
  | cons x t ih =>
      simp only [toStrAll] at h
      cases hx : x.toStr with
      | none => rw [hx] at h; exact absurd h (by simp)
      | some s =>
          rw [hx] at h
          cases ht : toStrAll t with
          | error e => rw [ht] at h; exact absurd h (by simp)
          | ok ss2 =>
              rw [ht] at h
              cases h
              simp [ih ss2 ht (toStrAll_ok_filterMap t ss2 ht)]

theorem entriesFor_append (key : String) (a b : List (String × String)) :
    entriesFor key (a ++ b) = entriesFor key a ++ entriesFor key b := by
  simp [entriesFor, List.filter_append]

theorem entriesFor_map_const (key k2 : String) (ss : List String) :
    entriesFor key (ss.map (fun s => (k2, s))) =
      if k2 = key then ss.map (fun s => (key, s)) else [] := by
  induction ss with
  | nil => simp [entriesFor]
  | cons s t ih =>
      by_cases h : k2 = key <;>
        simp only [List.map_cons, entriesFor, List.filter_cons] at * <;>
        simp_all [h]

theorem entriesFor_cons (key k2 : String) (s : String) (es : List (String × String)) :
    entriesFor key ((k2, s) :: es) =
      if k2 = key then (key, s) :: entriesFor key es else entriesFor key es := by
  by_cases h : k2 = key <;> simp [entriesFor, List.filter_cons, h]


theorem entryOf_ok (k : String) (v : JValue) (a : List (String × String))
    (h : entryOf k v = .ok a) : a = expectedEntries k v := by
  cases v with
  | arr xs =>
      simp only [entryOf] at h
      cases hts : toStrAll xs with
      | error e => rw [hts] at h; exact absurd h (by simp)
      | ok ss =>
          rw [hts] at h
          simp only [Except.ok.injEq] at h
          simp [expectedEntries, toStrAll_ok_filterMap xs ss hts, ← h]
  | undef => simp_all [entryOf, expectedEntries]
  | null => simp_all [entryOf, JValue.toStr]
  | boolv b => simp_all [entryOf, expectedEntries, JValue.toStr]
  | num n => simp_all [entryOf, expectedEntries, JValue.toStr]
  | str s => simp_all [entryOf, expectedEntries, JValue.toStr]
  | obj fs => simp_all [entryOf, expectedEntries, JValue.toStr]
  | bytes d => simp_all [entryOf, expectedEntries, JValue.toStr]
  | blob d => simp_all [entryOf, expectedEntries, JValue.toStr]
  | buffer d => simp_all [entryOf, expectedEntries, JValue.toStr]

theorem appendParams_cons_ok (k : String) (v : JValue) (t : JObj)
    (es : List (String × String)) (h : appendParams ((k, v) :: t) = .ok es) :
    ∃ a es2, entryOf k v = .ok a ∧ appendParams t = .ok es2 ∧ es = a ++ es2 := by
  simp only [appendParams] at h
  cases he : entryOf k v with
  | error e => rw [he] at h; exact absurd h (by simp)
  | ok a =>
      rw [he] at h
      cases ht : appendParams t with
      | error e => rw [ht] at h; exact absurd h (by simp)
      | ok es2 =>
          rw [ht] at h
          simp only [Except.ok.injEq] at h
          exact ⟨a, es2, rfl, rfl, h.symm⟩

theorem entriesFor_expectedEntries_ne (key k2 : String) (v : JValue) (h : k2 ≠ key) :
    entriesFor key (expectedEntries k2 v) = [] := by
  cases v with
  | arr xs => rw [expectedEntries, entriesFor_map_const]; simp [h]
  | undef => simp [expectedEntries, entriesFor]
  | null => simp [expectedEntries, JValue.toStr, entriesFor]
  | boolv b => simp [expectedEntries, JValue.toStr, entriesFor_cons, h, entriesFor]
  | num n => simp [expectedEntries, JValue.toStr, entriesFor_cons, h, entriesFor]
  | str s => simp [expectedEntries, JValue.toStr, entriesFor_cons, h, entriesFor]
  | obj fs => simp [expectedEntries, JValue.toStr, entriesFor_cons, h, entriesFor]
  | bytes d => simp [expectedEntries, JValue.toStr, entriesFor_cons, h, entriesFor]
  | blob d => simp [expectedEntries, JValue.toStr, entriesFor_cons, h, entriesFor]
  | buffer d => simp [expectedEntries, JValue.toStr, entriesFor_cons, h, entriesFor]

theorem entriesFor_expectedEntries_self (key : String) (v : JValue) :
    entriesFor key (expectedEntries key v) = expectedEntries key v := by
  cases v with
  | arr xs => rw [expectedEntries, entriesFor_map_const]; simp
  | undef => simp [expectedEntries, entriesFor]
  | null => simp [expectedEntries, JValue.toStr, entriesFor]
  | boolv b => simp [expectedEntries, JValue.toStr, entriesFor_cons, entriesFor]
  | num n => simp [expectedEntries, JValue.toStr, entriesFor_cons, entriesFor]
  | str s => simp [expectedEntries, JValue.toStr, entriesFor_cons, entriesFor]
  | obj fs => simp [expectedEntries, JValue.toStr, entriesFor_cons, entriesFor]
  | bytes d => simp [expectedEntries, JValue.toStr, entriesFor_cons, entriesFor]
  | blob d => simp [expectedEntries, JValue.toStr, entriesFor_cons, entriesFor]
  | buffer d => simp [expectedEntries, JValue.toStr, entriesFor_cons, entriesFor]

theorem entriesFor_appendParams_not_mem (key : String) (ps : JObj) :
    ∀ (es : List (String × String)), key ∉ ps.map Prod.fst →
      appendParams ps = .ok es → entriesFor key es = [] := by
  induction ps with
  | nil =>
      intro es _ h
      simp only [appendParams, Except.ok.injEq] at h
      simp [← h, entriesFor]
  | cons hd t ih =>
      intro es hmem h
      obtain ⟨k1, v1⟩ := hd
      simp only [List.map_cons, List.mem_cons] at hmem
      push_neg at hmem
      obtain ⟨a, es2, he, ht, rfl⟩ := appendParams_cons_ok k1 v1 t es h
      rw [entriesFor_append, ih es2 hmem.2 ht, entryOf_ok k1 v1 a he,
        entriesFor_expectedEntries_ne key k1 v1 (fun heq => hmem.1 heq.symm)]
      rfl

theorem entriesFor_appendParams (key : String) (ps : JObj) :
    ∀ (es : List (String × String)), (ps.map Prod.fst).Nodup →
      appendParams ps = .ok es →
      entriesFor key es = expectedEntries key (objGet ps key) := by
  induction ps with
  | nil =>
      intro es _ h
      simp only [appendParams, Except.ok.injEq] at h
      simp [← h, entriesFor, objGet, expectedEntries]
  | cons hd t ih =>
      intro es hnd h
      obtain ⟨k1, v1⟩ := hd
      simp only [List.map_cons, List.nodup_cons] at hnd
      obtain ⟨a, es2, he, ht, rfl⟩ := appendParams_cons_ok k1 v1 t es h
      rw [entriesFor_append, entryOf_ok k1 v1 a he]
      by_cases hk : k1 = key
      · subst hk
        rw [entriesFor_appendParams_not_mem k1 t es2 hnd.1 ht,
          entriesFor_expectedEntries_self]
        simp [objGet]
      · rw [entriesFor_expectedEntries_ne key k1 v1 hk, ih es2 hnd.2 ht]
        simp [objGet, hk]

theorem appendParams_ok_entryOf (ps : JObj) (es : List (String × String))
    (h : appendParams ps = .ok es) :
    ∀ kv ∈ ps, ∃ a, entryOf kv.1 kv.2 = .ok a := by
  induction ps generalizing es with
  | nil => intro kv hkv; simp at hkv
  | cons hd t ih =>
      intro kv hkv
      obtain ⟨k1, v1⟩ := hd
      obtain ⟨a, es2, he, ht, rfl⟩ := appendParams_cons_ok k1 v1 t es h
      rcases List.mem_cons.mp hkv with hkv1 | hkv1
      · exact ⟨a, by simpa [hkv1] using he⟩
      · exact ih es2 ht kv hkv1

theorem objGet_mem (ps : JObj) (key : String) (h : objGet ps key ≠ .undef) :
    (key, objGet ps key) ∈ ps := by
  induction ps with
  | nil => simp [objGet] at h
  | cons hd t ih =>
      obtain ⟨k1, v1⟩ := hd
      by_cases hk : k1 = key
      · subst hk
        simp [objGet]
      · simp only [objGet, if_neg hk] at h ⊢
        exact List.mem_cons_of_mem _ (ih h)

theorem hGet_hSet_self (h : HList) (k v : String) : hGet (hSet h k v) k = some v := by
  induction h with
  | nil => simp [hSet, hGet]
  | cons hd t ih =>
      by_cases hk : hd.1 = k
      · simp [hSet, hk, hGet]
      · simp [hSet, hk, hGet, ih]

theorem hGet_hSet_ne (h : HList) (k k2 v : String) (hne : k ≠ k2) :
    hGet (hSet h k v) k2 = hGet h k2 := by
  induction h with
  | nil => simp [hSet, hGet, hne]
  | cons hd t ih =>
      by_cases hk : hd.1 = k
      · simp [hSet, hk, hGet, hne]
      · simp only [hSet, if_neg hk]
        by_cases h2 : hd.1 = k2
        · simp [hGet, h2]
        · simp [hGet, h2, ih]

theorem prefix_key_ne_of_head (p t s : String) (c : Char)
    (hp : (p.data).head? = some c) (ht : (t.data).head? ≠ some c) : p ++ s ≠ t := by
  intro he
  apply ht
  have hd : (p ++ s).data = t.data := congrArg String.data he
  rw [String.data_append] at hd
  rw [← hd]
  cases hpd : p.data with
  | nil => rw [hpd] at hp; exact absurd hp (by simp)
  | cons a l => rw [hpd] at hp; simp only [List.head?] at hp; simp [hpd, hp]

theorem node_meta_key_ne (k t : String) (ht : (t.data).head? ≠ some 'n') :
    ("node-meta=" ++ k) ≠ t :=
  prefix_key_ne_of_head ("node-meta=") t k 'n' (by decide) ht

theorem node_meta_key_ne_nodeMeta (k : String) : ("node-meta=" ++ k) ≠ ("nodeMeta") := by
  intro he
  have hl := congrArg String.length he
  rw [String.length_append] at hl
  have h1 : ("node-meta=").length = 10 := rfl
  have h2 : ("nodeMeta").length = 8 := rfl
  rw [h1, h2] at hl
  omega

theorem objGet_nmFold_ne (m : List (String × JValue)) : ∀ (ps : JObj) (key : String),
    (∀ e ∈ m, ("node-meta=" ++ e.1) ≠ key) →
    objGet (m.foldl (fun ps e => objSet ps ("node-meta=" ++ e.1) e.2) ps) key
      = objGet ps key := by
  induction m with
  | nil => intro ps key _; rfl
  | cons hd t ih =>
      intro ps key hne
      simp only [List.foldl_cons]
      rw [ih _ key (fun e he => hne e (List.mem_cons_of_mem _ he))]
      exact objGet_objSet_ne ps _ key hd.2 (hne hd (by simp))

theorem objGet_nmFold_mem (m : List (String × JValue)) :
    (m.map (fun e => "node-meta=" ++ e.1)).Nodup →
    ∀ (ps : JObj), ∀ e ∈ m,
      objGet (m.foldl (fun ps e2 => objSet ps ("node-meta=" ++ e2.1) e2.2) ps)
        ("node-meta=" ++ e.1) = e.2 := by
  induction m with
  | nil => intro _ ps e he; exact absurd he (by simp)
  | cons hd t ih =>
      intro hnd ps e he
      simp only [List.map_cons, List.nodup_cons] at hnd
      simp only [List.foldl_cons]
      rcases List.mem_cons.mp he with h1 | h1
      · subst h1
        rw [objGet_nmFold_ne t _ _ ?side, objGet_objSet_self]
        case side =>
          intro e2 he2 heq
          apply hnd.1
          rw [← heq]
          exact List.mem_map_of_mem _ he2
      · exact ih hnd.2 _ e h1

theorem nodup_keys_nmFold (m : List (String × JValue)) : ∀ (ps : JObj),
    (ps.map Prod.fst).Nodup →
    ((m.foldl (fun ps e => objSet ps ("node-meta=" ++ e.1) e.2) ps).map Prod.fst).Nodup := by
  induction m with
  | nil => intro ps h; exact h
  | cons hd t ih =>
      intro ps h
      simp only [List.foldl_cons]
      exact ih _ (nodup_keys_objSet ps _ hd.2 h)

/-- A query-parameter bag whose values all stringify, so URL building succeeds. -/
def paramsOk (o : Option JObj) : Prop :=
  match o with
  | none => True
  | some ps => ∃ es, appendParams ps = .ok es

theorem buildUrl_ok_of_paramsOk (b p : String) (o : Option JObj) (hp : paramsOk o) :
    ∃ url, buildUrl b p o = .ok url := by
  cases o with
  | none => exact ⟨_, rfl⟩
  | some ps =>
      obtain ⟨es, hes⟩ := hp
      refine ⟨⟨if startsWithHttp p then p else b ++ p, es⟩, ?_⟩
      simp only [buildUrl, hes]

theorem request_error_of_thrown (c : HttpClientM) (method path : String) (o : ReqOptions)
    (m : String) (hf : c.fetchFn = fun _ _ => .thrown m) :
    ∃ e, HttpClient.request c method path o = .error e := by
  cases hb : buildUrl c.baseUrl path o.params with
  | error e => exact ⟨e, by unfold HttpClient.request; rw [hb]⟩
  | ok url => exact ⟨m, by unfold HttpClient.request; rw [hb]; simp [hf]⟩

theorem request_error_of_not_ok (c : HttpClientM) (method path : String) (o : ReqOptions)
    (r : FetchResponseM) (hf : c.fetchFn = fun _ _ => .resp r) (hok : r.ok = false) :
    ∃ e, HttpClient.request c method path o = .error e := by
  cases hb : buildUrl c.baseUrl path o.params with
  | error e => exact ⟨e, by unfold HttpClient.request; rw [hb]⟩
  | ok url => exact ⟨httpErrMsg r, by unfold HttpClient.request; rw [hb]; simp [hf, hok]⟩

theorem request_ok_json (c : HttpClientM) (method path : String) (o : ReqOptions)
    (r : FetchResponseM) (v : JValue)
    (hf : c.fetchFn = fun _ _ => .resp r) (hok : r.ok = true)
    (hrt : o.responseType = .json) (hdec : decodeJsonShape r = .ok v)
    (hp : paramsOk o.params) :
    HttpClient.request c method path o = .ok v := by
  obtain ⟨url, hb⟩ := buildUrl_ok_of_paramsOk c.baseUrl path o.params hp
  unfold HttpClient.request
  rw [hb]
  simp [hf, hok, decodeResp, hrt, hdec]

/--
The write-style operations of the surface: the operations documented to
follow the boolean convention, with their call arguments.
-/
inductive WriteCall where
  | agentServiceRegister (service : JValue) (options : Option JObj)
  | agentServiceDeregister (serviceId : String) (options : Option JObj)
  | agentCheckRegister (check : JValue) (options : Option JObj)
  | agentCheckDeregister (checkId : String) (options : Option JObj)
  | agentJoin (address : String) (options : Option JObj)
  | agentLeave (options : Option JObj)
  | agentReload (options : Option JObj)
  | agentCheckUpdate (checkId : String) (state : String) (options : Option JObj)
  | catalogRegister (registration : JValue) (options : Option JObj)
  | catalogDeregister (deregistration : JValue) (options : Option JObj)
  | kvPut (key : String) (value : JValue) (options : Option JObj)
  | kvDelete (key : String) (options : Option JObj)
  | sessionDestroy (sessionId : String) (options : Option JObj)
  | queryUpdate (queryId : String) (query : JValue) (options : Option JObj)
  | queryDelete (queryId : String) (options : Option JObj)
  | snapshotRestore (snapshot : JValue) (options : Option JObj)

/-- The options bag a write call forwards as its query parameters. -/
def WriteCall.options : WriteCall → Option JObj
  | .agentServiceRegister _ o => o
  | .agentServiceDeregister _ o => o
  | .agentCheckRegister _ o => o
  | .agentCheckDeregister _ o => o
  | .agentJoin _ o => o
  | .agentLeave o => o
  | .agentReload o => o
  | .agentCheckUpdate _ _ o => o
  | .catalogRegister _ o => o
  | .catalogDeregister _ o => o
  | .kvPut _ _ o => o
  | .kvDelete _ o => o
  | .sessionDestroy _ o => o
  | .queryUpdate _ _ o => o
  | .queryDelete _ o => o
  | .snapshotRestore _ o => o

/-- Dispatch a write call to its embedded operation. -/
def runWrite (c : HttpClientM) : WriteCall → Bool × Option String
  | .agentServiceRegister s o => ConsulAgent.serviceRegister c s o
  | .agentServiceDeregister s o => ConsulAgent.serviceDeregister c s o
  | .agentCheckRegister ch o => ConsulAgent.checkRegister c ch o
  | .agentCheckDeregister ch o => ConsulAgent.checkDeregister c ch o
  | .agentJoin a o => ConsulAgent.join c a o
  | .agentLeave o => ConsulAgent.leave c o
  | .agentReload o => ConsulAgent.reload c o
  | .agentCheckUpdate ch st o => ConsulAgent.checkUpdate c ch st o
  | .catalogRegister r o => CatalogClient.register c r o
  | .catalogDeregister d o => CatalogClient.deregister c d o
  | .kvPut k v o => KVClient.put c k v o
  | .kvDelete k o => KVClient.delete c k o
  | .sessionDestroy s o => SessionClient.destroy c s o
  | .queryUpdate i q o => QueryClient.update c i q o
  | .queryDelete i o => QueryClient.delete c i o
  | .snapshotRestore s o => SnapshotClient.restore c s o

theorem runWrite_spec (c : HttpClientM) (w : WriteCall) :
    ∃ (method path : String) (o : ReqOptions),
      runWrite c w = tryBool (HttpClient.request c method path o)
        ∧ o.responseType = .json ∧ o.params = w.options := by
  cases w <;> exact ⟨_, _, _, rfl, rfl, rfl⟩

/--
Claim C1: for every write-style operation (agent
serviceRegister/serviceDeregister/checkRegister/checkDeregister/join/leave/
reload/checkUpdate, catalog register/deregister, kv.put/delete,
session.destroy, query.update/delete, snapshot.restore) and every behaviour
of the injected network-call function, the operation returns a boolean and
never propagates an exception (its return type is the boolean paired with
the logged error); a thrown transport error or a non-2xx response yields
`false` together with a logged error; a successful 2xx call (one whose
response decodes under the default json shape, with stringifiable query
parameters) yields `true` with nothing logged.
-/
theorem write_ops_boolean_convention (c : HttpClientM) (w : WriteCall) :
    ((∃ e, runWrite c w = (false, some e)) ∨ runWrite c w = (true, none))
    ∧ (∀ m, c.fetchFn = (fun _ _ => .thrown m) → ∃ e, runWrite c w = (false, some e))
    ∧ (∀ r, c.fetchFn = (fun _ _ => .resp r) → r.ok = false →
        ∃ e, runWrite c w = (false, some e))
    ∧ (∀ r v, c.fetchFn = (fun _ _ => .resp r) → r.ok = true →
        decodeJsonShape r = .ok v → paramsOk w.options →
        runWrite c w = (true, none)) := by
  obtain ⟨method, path, o, heq, hrt, hpar⟩ := runWrite_spec c w
  refine ⟨?_, ?_, ?_, ?_⟩
  · rw [heq]
    cases hreq : HttpClient.request c method path o with
    | error e => exact .inl ⟨e, by simp [tryBool]⟩
    | ok v => exact .inr (by simp [tryBool])
  · intro m hf
    obtain ⟨e, he⟩ := request_error_of_thrown c method path o m hf
    exact ⟨e, by rw [heq, he]; rfl⟩
  · intro r hf hok
    obtain ⟨e, he⟩ := request_error_of_not_ok c method path o r hf hok
    exact ⟨e, by rw [heq, he]; rfl⟩
  · intro r v hf hok hdec hp
    rw [heq, request_ok_json c method path o r v hf hok hrt hdec (by rw [hpar]; exact hp)]
    rfl

theorem write_ops_boolean_convention_applied :
    runWrite ⟨"http://localhost:8500/v1", [],
        fun _ _ => .resp ⟨true, 200, "OK", some ("0"), some (""), none, []⟩⟩
      (.agentLeave none) = (true, none)
    ∧ runWrite ⟨"http://localhost:8500/v1", [], fun _ _ => .thrown ("connection refused")⟩
      (.kvPut ("k") (.str "v") none) = (false, some ("connection refused")) := by
  constructor
  · exact (write_ops_boolean_convention _ (.agentLeave none)).2.2.2
      ⟨true, 200, "OK", some ("0"), some (""), none, []⟩ .null rfl rfl rfl trivial
  · obtain ⟨e, he⟩ := (write_ops_boolean_convention
      ⟨"http://localhost:8500/v1", [], fun _ _ => .thrown ("connection refused")⟩
      (.kvPut ("k") (.str "v") none)).2.1 ("connection refused") rfl
    rw [he]
    have : e = "connection refused" := by
      have h2 := he
      rw [show (runWrite ⟨"http://localhost:8500/v1", [],
          fun _ _ => .thrown ("connection refused")⟩ (.kvPut ("k") (.str "v") none))
          = (false, some ("connection refused")) from rfl] at h2
      simpa using h2.symm
    rw [this]

/--
Claim C9: the client configuration (base URL, default header set, injected
network-call function, i.e. the `HttpClientM` record shared by all endpoint
groups) is immutable after construction: running any operation of any
endpoint group leaves the configuration unchanged, so no call can observe a
configuration different from the constructed one.  The state-passing
dispatcher `runApiSt` translates each source method body, none of which
contains an assignment to a configuration field.
-/
theorem client_config_immutable (c : HttpClientM) (call : ApiCall) :
    (runApiSt c call).2 = c := by
  cases call <;> rfl

/--
Claim C7: constructing a client with host `x`, port `9999` and token `T`
and calling `kv.put("k", "v")` makes the (single) network call a `PUT` to
`http://x:9999/v1/kv/k` with no query entries, carrying the
`X-Consul-Token: T` header and the raw body `"v"`; a 200 response makes
`kv.put` return `true`.  This is exhibited by a checking network-call
function that answers 200 only to exactly that request and throws
otherwise.  Construction defaults: an empty options bag yields base URL
`http://localhost:8500/v1` (host `localhost`, port `8500`, plain `http`),
and setting the security flag switches the scheme to `https`.
-/
theorem client_construction_and_kv_put_scenario (native : FetchFn) :
    (ConsulClient.build native ⟨none, none, none, none, none, none⟩).baseUrl
        = "http://localhost:8500/v1"
    ∧ (ConsulClient.build native ⟨none, none, none, none, none, none⟩).defaultHeaders = []
    ∧ (ConsulClient.build native ⟨none, none, some true, none, none, none⟩).baseUrl
        = "https://localhost:8500/v1"
    ∧ KVClient.put
        (ConsulClient.build native
          ⟨some ("x"), some 9999, none, some ("T"), none,
           some (fun u i =>
             if (u.origin == "http://x:9999/v1/kv/k")
                 && (u.queryEntries == ([] : List (String × String)))
                 && (i.method == "PUT")
                 && (hGet i.headers ("X-Consul-Token") == some ("T"))
                 && (match i.body with
                     | some (.raw (.str s)) => s == "v"
                     | _ => false) then
               .resp ⟨true, 200, "OK", some ("4"), some ("true"), some (.boolv true), []⟩
             else
               .thrown ("unexpected request"))⟩)
        ("k") (.str "v") none = (true, none) := by
  refine ⟨rfl, rfl, rfl, ?_⟩
  rfl

/--
Claim C2 (code bug): the code intends (comment at src/client.ts line 158,
"If response is not valid JSON, return text instead") that a 2xx response
under the default json shape never raises, returning `null` for
content-length `"0"` and falling back to the raw text on a parse failure.
With spec-compliant `Response` objects, however, `response.json()` consumes
the body before rejecting on malformed JSON, so the fallback
`response.text()` rejects with a `TypeError` and `request` raises.  This
theorem evaluates the embedding at the failing input — a 200 response with
body `"not json"` — showing the raised `TypeError`, and contrasts it with
the intact content-length-`"0"` and valid-JSON paths.
-/
theorem malformed_json_fallback_raises :
    HttpClient.request
        ⟨"http://localhost:8500/v1", [],
          fun _ _ => .resp ⟨true, 200, "OK", some ("8"), some ("not json"), none, []⟩⟩
        ("GET") ("/kv/k") (pOpts none)
      = .error ("TypeError: Body is unusable: Body has already been read")
    ∧ HttpClient.request
        ⟨"http://localhost:8500/v1", [],
          fun _ _ => .resp ⟨true, 200, "OK", some ("0"), some (""), none, []⟩⟩
        ("GET") ("/kv/k") (pOpts none)
      = .ok .null
    ∧ HttpClient.request
        ⟨"http://localhost:8500/v1", [],
          fun _ _ => .resp ⟨true, 200, "OK", some ("2"), some ("[]"), some (.arr []), []⟩⟩
        ("GET") ("/kv/k") (pOpts none)
      = .ok (.arr []) := by
  exact ⟨rfl, rfl, rfl⟩

/--
Claim C5: `kv.get` returns `null` when the request fails for any reason
(the operation is a total function, so no exception can propagate), `null`
when the transport yields an absent (`null`) response or an empty list, and,
when the response is a one-element list and the `raw` option is not set,
exactly that single element, unchanged.
-/
theorem kv_get_null_and_collapse (c : HttpClientM) (key : String) (options : Option JObj) :
    (∀ e, HttpClient.get c ("/kv/" ++ key) (pOpts (some (jsSpreadOpt options))) = .error e →
        KVClient.get c key options = .null)
    ∧ (HttpClient.get c ("/kv/" ++ key) (pOpts (some (jsSpreadOpt options))) = .ok .null →
        KVClient.get c key options = .null)
    ∧ (HttpClient.get c ("/kv/" ++ key) (pOpts (some (jsSpreadOpt options))) = .ok (.arr []) →
        KVClient.get c key options = .null)
    ∧ (∀ x, HttpClient.get c ("/kv/" ++ key) (pOpts (some (jsSpreadOpt options)))
          = .ok (.arr [x]) →
        (jsOptGet options ("raw")).truthy = false →
        KVClient.get c key options = x) := by
  refine ⟨?_, ?_, ?_, ?_⟩
  · intro e h
    unfold KVClient.get
    rw [h]
  · intro h
    unfold KVClient.get
    rw [h]
    simp [JValue.truthy]
  · intro h
    unfold KVClient.get
    rw [h]
    simp [JValue.truthy]
  · intro x h hr
    unfold KVClient.get
    rw [h]
    simp only [hr]
    simp [JValue.truthy]

theorem kv_get_null_and_collapse_applied :
    KVClient.get
        ⟨"http://localhost:8500/v1", [],
          fun _ _ => .resp ⟨true, 200, "OK", some ("60"), some ("x"),
            some (.arr [.obj [(("Key"), .str "k"), (("Value"), .str "aGk="),
              (("ModifyIndex"), .num 7)]]), []⟩⟩
        ("k") none
      = .obj [(("Key"), .str "k"), (("Value"), .str "aGk="), (("ModifyIndex"), .num 7)]
    ∧ KVClient.get
        ⟨"http://localhost:8500/v1", [], fun _ _ => .thrown ("connection refused")⟩
        ("k") none
      = .null := by
  constructor
  · exact (kv_get_null_and_collapse _ ("k") none).2.2.2
      (.obj [(("Key"), .str "k"), (("Value"), .str "aGk="), (("ModifyIndex"), .num 7)])
      rfl rfl
  · exact (kv_get_null_and_collapse _ ("k") none).1 ("connection refused") rfl

theorem buildUrl_some_ok (b p : String) (ps : JObj) (u : BuiltUrl)
    (h : buildUrl b p (some ps) = .ok u) : appendParams ps = .ok u.queryEntries := by
  simp only [buildUrl] at h
  cases happ : appendParams ps with
  | error e => rw [happ] at h; exact absurd h (by simp)
  | ok es =>
      rw [happ] at h
      simp only [Except.ok.injEq] at h
      rw [← h]

theorem expectedEntries_scalar (k : String) (v : JValue) (s : String)
    (hna : ∀ xs, v ≠ .arr xs) (hs : v.toStr = some s) :
    expectedEntries k v = [(k, s)] := by
  cases v with
  | arr xs => exact absurd rfl (hna xs)
  | undef => simp [JValue.toStr] at hs
  | null => simp [JValue.toStr] at hs
  | boolv b => simp_all [expectedEntries, JValue.toStr]
  | num n => simp_all [expectedEntries, JValue.toStr]
  | str t => simp_all [expectedEntries, JValue.toStr]
  | obj fs => simp_all [expectedEntries, JValue.toStr]
  | bytes d => simp_all [expectedEntries, JValue.toStr]
  | blob d => simp_all [expectedEntries, JValue.toStr]
  | buffer d => simp_all [expectedEntries, JValue.toStr]

theorem buildUrl_error_of_null (base path : String) (ps : JObj) (k : String)
    (hnull : objGet ps k = .null) : ∃ e, buildUrl base path (some ps) = .error e := by
  cases hb : buildUrl base path (some ps) with
  | error e => exact ⟨e, rfl⟩
  | ok u =>
      exfalso
      have happ := buildUrl_some_ok base path ps u hb
      have hmem : (k, JValue.null) ∈ ps := by
        have := objGet_mem ps k (by rw [hnull]; exact fun hc => JValue.noConfusion hc)
        rwa [hnull] at this
      obtain ⟨a, ha⟩ := appendParams_ok_entryOf ps u.queryEntries happ (k, .null) hmem
      simp [entryOf, JValue.toStr] at ha

theorem expectedEntries_nil_cases (ps : JObj) (es : List (String × String)) (k : String)
    (h : appendParams ps = .ok es) (v : JValue) (hv : objGet ps k = v)
    (hnil : expectedEntries k v = []) : v = .undef ∨ v = .arr [] := by
  by_cases hu : v = .undef
  · exact .inl hu
  · right
    have hmem : (k, v) ∈ ps := by
      rw [← hv]
      exact objGet_mem ps k (by rw [hv]; exact hu)
    obtain ⟨a, ha⟩ := appendParams_ok_entryOf ps es h (k, v) hmem
    cases v with
    | undef => exact absurd rfl hu
    | arr xs =>
        simp only [entryOf] at ha
        cases hts : toStrAll xs with
        | error e => rw [hts] at ha; exact absurd ha (by simp)
        | ok ss =>
            have hlen := toStrAll_ok_length xs ss hts
            have hfm := toStrAll_ok_filterMap xs ss hts
            simp only [expectedEntries] at hnil
            rw [hfm] at hnil
            have hss : ss = [] := by
              cases ss with
              | nil => rfl
              | cons a b => simp at hnil
            subst hss
            simp only [List.length_nil] at hlen
            cases xs with
            | nil => rfl
            | cons a b => simp at hlen
    | null => simp [entryOf, JValue.toStr] at ha
    | boolv b => simp [expectedEntries, JValue.toStr] at hnil
    | num n => simp [expectedEntries, JValue.toStr] at hnil
    | str s => simp [expectedEntries, JValue.toStr] at hnil
    | obj fs => simp [expectedEntries, JValue.toStr] at hnil
    | bytes d => simp [expectedEntries, JValue.toStr] at hnil
    | blob d => simp [expectedEntries, JValue.toStr] at hnil
    | buffer d => simp [expectedEntries, JValue.toStr] at hnil

/--
Claim C6 (amended): in `buildUrl`, for a mapping with unique keys, an
array value produces one query entry per stringifiable element, in element
order, under the same key (a `null`/`undefined` element makes URL building
throw); an `undefined` (or absent) value omits the key entirely; any other
value whose string conversion succeeds produces a single query entry with
its string form; and a `null` value makes URL building throw a `TypeError`
instead of producing an entry.
-/
theorem query_param_serialization (base path : String) (ps : JObj) (k : String)
    (hnd : (ps.map Prod.fst).Nodup) :
    (∀ xs ss u, objGet ps k = .arr xs → toStrAll xs = .ok ss →
        buildUrl base path (some ps) = .ok u →
        entriesFor k u.queryEntries = ss.map (fun s => (k, s)))
    ∧ (∀ u, objGet ps k = .undef → buildUrl base path (some ps) = .ok u →
        entriesFor k u.queryEntries = [])
    ∧ (∀ v s u, objGet ps k = v → (∀ xs, v ≠ .arr xs) → v.toStr = some s →
        buildUrl base path (some ps) = .ok u →
        entriesFor k u.queryEntries = [(k, s)])
    ∧ (objGet ps k = .null → ∃ e, buildUrl base path (some ps) = .error e) := by
  refine ⟨?_, ?_, ?_, fun hnull => buildUrl_error_of_null base path ps k hnull⟩
  · intro xs ss u hv hts hb
    rw [entriesFor_appendParams k ps u.queryEntries hnd (buildUrl_some_ok base path ps u hb),
      hv]
    simp [expectedEntries, toStrAll_ok_filterMap xs ss hts]
  · intro u hv hb
    rw [entriesFor_appendParams k ps u.queryEntries hnd (buildUrl_some_ok base path ps u hb),
      hv]
    rfl
  · intro v s u hv hna hs hb
    rw [entriesFor_appendParams k ps u.queryEntries hnd (buildUrl_some_ok base path ps u hb),
      hv, expectedEntries_scalar k v s hna hs]

theorem query_param_serialization_applied :
    ((["a", "b", "c"].map (fun s => (("tag"), s)))
        = [(("tag"), "a"), (("tag"), "b"), (("tag"), "c")])
    ∧ (∀ u, buildUrl "http://h" "/p"
          (some [(("tag"), .arr [.str "a", .str "b", .str "c"]), (("dc"), .str "dc1")])
          = .ok u →
        entriesFor ("tag") u.queryEntries = [(("tag"), "a"), (("tag"), "b"), (("tag"), "c")])
    ∧ entriesFor ("tag")
        (BuiltUrl.queryEntries
          ⟨"http://h/p", [(("tag"), "a"), (("tag"), "b"), (("tag"), "c"), (("dc"), "dc1")]⟩)
      = [(("tag"), "a"), (("tag"), "b"), (("tag"), "c")] := by
  refine ⟨rfl, ?_, rfl⟩
  intro u hb
  have := (query_param_serialization "http://h" "/p"
      [(("tag"), .arr [.str "a", .str "b", .str "c"]), (("dc"), .str "dc1")]
      ("tag") (by decide)).1
      [.str "a", .str "b", .str "c"] ["a", "b", "c"] u rfl rfl hb
  simpa using this

/--
Counterexample to claim C6 as stated: a key bound to `null` does not produce
"a single query entry with the value's string form" — URL building throws a
`TypeError` (from `null.toString()`) and no URL is produced at all.
-/
theorem null_query_value_has_no_entry :
    buildUrl "http://h" "/p" (some [(("k"), JValue.null)])
      = .error ("TypeError: Cannot convert value to string") := rfl

/--
Claim C10 (amended): for a mapping with unique keys, a key is omitted from a
successfully built URL exactly when its value is strictly `undefined` or an
empty array (which contributes zero entries); a key bound to `null` is never
silently dropped — with a `null` value no URL is built at all, the string
conversion throwing instead.
-/
theorem query_key_omission (base path : String) (ps : JObj) (k : String)
    (hnd : (ps.map Prod.fst).Nodup) :
    (∀ u, buildUrl base path (some ps) = .ok u →
        (entriesFor k u.queryEntries = []
          ↔ objGet ps k = .undef ∨ objGet ps k = .arr []))
    ∧ (objGet ps k = .null → ∃ e, buildUrl base path (some ps) = .error e) := by
  refine ⟨?_, fun hnull => buildUrl_error_of_null base path ps k hnull⟩
  intro u hb
  have happ := buildUrl_some_ok base path ps u hb
  rw [entriesFor_appendParams k ps u.queryEntries hnd happ]
  constructor
  · intro hnil
    exact expectedEntries_nil_cases ps u.queryEntries k happ (objGet ps k) rfl hnil
  · rintro (h | h) <;> rw [h] <;> simp [expectedEntries]

theorem query_key_omission_applied :
    (objGet [(("a"), JValue.undef), (("b"), .str "1")] ("a") = JValue.undef)
    ∧ (∀ u, buildUrl "http://h" "/p" (some [(("a"), JValue.undef), (("b"), .str "1")])
          = .ok u → entriesFor ("a") u.queryEntries = []) := by
  refine ⟨rfl, ?_⟩
  intro u hb
  exact ((query_key_omission "http://h" "/p" [(("a"), JValue.undef), (("b"), .str "1")]
      ("a") (by decide)).1 u hb).mpr (.inl rfl)

/--
Counterexample to claim C10 as stated ("a query-parameter key is omitted
exactly when its value is strictly undefined"): a key bound to an empty
array is also omitted from the successfully built URL even though its value
is not `undefined`.
-/
theorem empty_array_key_omitted :
    buildUrl "http://h" "/p" (some [(("k"), JValue.arr [])])
      = .ok ⟨"http://h/p", []⟩
    ∧ JValue.arr [] ≠ JValue.undef := ⟨rfl, fun h => JValue.noConfusion h⟩

theorem nodup_keys_stepIndex (o ps : JObj) (h : (ps.map Prod.fst).Nodup) :
    ((stepIndex o ps).map Prod.fst).Nodup := by
  unfold stepIndex
  split
  · exact nodup_keys_objSet ps _ _ h
  · exact h

theorem nodup_keys_stepWait (o ps : JObj) (h : (ps.map Prod.fst).Nodup) :
    ((stepWait o ps).map Prod.fst).Nodup := by
  unfold stepWait
  split
  · exact nodup_keys_objSet ps _ _ h
  · exact h

theorem nodup_keys_stepConsistency (o ps : JObj) (h : (ps.map Prod.fst).Nodup) :
    ((stepConsistency o ps).map Prod.fst).Nodup := by
  unfold stepConsistency
  repeat' first
    | assumption
    | split
    | apply nodup_keys_objSet

theorem nodup_keys_stepNodeMeta (o ps : JObj) (h : (ps.map Prod.fst).Nodup) :
    ((stepNodeMeta o ps).map Prod.fst).Nodup := by
  unfold stepNodeMeta
  split
  · exact nodup_keys_objSet _ _ _ (nodup_keys_nmFold _ ps h)
  · exact h

theorem nodup_keys_stepPassing (o ps : JObj) (h : (ps.map Prod.fst).Nodup) :
    ((stepPassing o ps).map Prod.fst).Nodup := by
  unfold stepPassing
  split
  · exact nodup_keys_objSet ps _ _ h
  · exact h

theorem nodup_keys_stepMergeCC (o ps : JObj) (h : (ps.map Prod.fst).Nodup) :
    ((stepMergeCC o ps).map Prod.fst).Nodup := by
  unfold stepMergeCC
  split
  · exact nodup_keys_objSet _ _ _ (nodup_keys_objSet ps _ _ h)
  · exact h

theorem objGet_stepIndex_ne (o ps : JObj) (key : String) (h : ("index") ≠ key) :
    objGet (stepIndex o ps) key = objGet ps key := by
  unfold stepIndex
  split
  · exact objGet_objSet_ne _ _ _ _ h
  · rfl

theorem objGet_stepWait_ne (o ps : JObj) (key : String) (h : ("wait") ≠ key) :
    objGet (stepWait o ps) key = objGet ps key := by
  unfold stepWait
  split
  · exact objGet_objSet_ne _ _ _ _ h
  · rfl

theorem objGet_stepConsistency_ne (o ps : JObj) (key : String)
    (h1 : ("consistent") ≠ key) (h2 : ("stale") ≠ key) (h3 : ("consistency") ≠ key) :
    objGet (stepConsistency o ps) key = objGet ps key := by
  unfold stepConsistency
  split
  · rw [objGet_objSet_ne _ _ _ _ h3]
    split
    · exact objGet_objSet_ne _ _ _ _ h1
    · split
      · exact objGet_objSet_ne _ _ _ _ h2
      · rfl
  · rfl

theorem objGet_stepNodeMeta_ne (o ps : JObj) (key : String)
    (h1 : ∀ s : String, ("node-meta=" ++ s) ≠ key) (h2 : ("nodeMeta") ≠ key) :
    objGet (stepNodeMeta o ps) key = objGet ps key := by
  unfold stepNodeMeta
  split
  · rw [objGet_objSet_ne _ _ _ _ h2]
    exact objGet_nmFold_ne _ ps key (fun e _ => h1 e.1)
  · rfl

theorem objGet_stepPassing_ne (o ps : JObj) (key : String) (h : ("passing") ≠ key) :
    objGet (stepPassing o ps) key = objGet ps key := by
  unfold stepPassing
  split
  · exact objGet_objSet_ne _ _ _ _ h
  · rfl

theorem objGet_stepMergeCC_ne (o ps : JObj) (key : String)
    (h1 : ("merge-central-config") ≠ key) (h2 : ("mergeCentralConfig") ≠ key) :
    objGet (stepMergeCC o ps) key = objGet ps key := by
  unfold stepMergeCC
  split
  · rw [objGet_objSet_ne _ _ _ _ h2]
    exact objGet_objSet_ne _ _ _ _ h1
  · rfl

theorem stepConsistency_consistent (o ps : JObj)
    (hc : objGet o ("consistency") = .str "consistent") :
    objGet (stepConsistency o ps) ("consistent") = .boolv true
    ∧ objGet (stepConsistency o ps) ("stale") = objGet ps ("stale")
    ∧ objGet (stepConsistency o ps) ("consistency") = .undef := by
  unfold stepConsistency
  rw [hc]
  simp only [show (JValue.str ("consistent")).truthy = true from rfl,
    show (JValue.str ("consistent")).isStrEq ("consistent") = true from rfl, if_true]
  refine ⟨?_, ?_, ?_⟩
  · rw [objGet_objSet_ne _ _ _ _ (by decide)]
    exact objGet_objSet_self _ _ _
  · rw [objGet_objSet_ne _ _ _ _ (by decide), objGet_objSet_ne _ _ _ _ (by decide)]
  · exact objGet_objSet_self _ _ _

theorem stepConsistency_stale (o ps : JObj)
    (hc : objGet o ("consistency") = .str "stale") :
    objGet (stepConsistency o ps) ("stale") = .boolv true
    ∧ objGet (stepConsistency o ps) ("consistent") = objGet ps ("consistent")
    ∧ objGet (stepConsistency o ps) ("consistency") = .undef := by
  unfold stepConsistency
  rw [hc]
  simp only [show (JValue.str ("stale")).truthy = true from rfl,
    show (JValue.str ("stale")).isStrEq ("consistent") = false from rfl,
    show (JValue.str ("stale")).isStrEq ("stale") = true from rfl,
    if_true, Bool.false_eq_true, if_false]
  refine ⟨?_, ?_, ?_⟩
  · rw [objGet_objSet_ne _ _ _ _ (by decide)]
    exact objGet_objSet_self _ _ _
  · rw [objGet_objSet_ne _ _ _ _ (by decide), objGet_objSet_ne _ _ _ _ (by decide)]
  · exact objGet_objSet_self _ _ _

theorem stepConsistency_default (o ps : JObj)
    (hc : objGet o ("consistency") = .str "default") :
    objGet (stepConsistency o ps) ("consistent") = objGet ps ("consistent")
    ∧ objGet (stepConsistency o ps) ("stale") = objGet ps ("stale")
    ∧ objGet (stepConsistency o ps) ("consistency") = .undef := by
  unfold stepConsistency
  rw [hc]
  simp only [show (JValue.str ("default")).truthy = true from rfl,
    show (JValue.str ("default")).isStrEq ("consistent") = false from rfl,
    show (JValue.str ("default")).isStrEq ("stale") = false from rfl,
    if_true, Bool.false_eq_true, if_false]
  refine ⟨?_, ?_, ?_⟩
  · exact objGet_objSet_ne _ _ _ _ (by decide)
  · exact objGet_objSet_ne _ _ _ _ (by decide)
  · exact objGet_objSet_self _ _ _

theorem stepConsistency_absent (o ps : JObj)
    (hc : objGet o ("consistency") = .undef) :
    stepConsistency o ps = ps := by
  unfold stepConsistency
  rw [hc]
  simp [JValue.truthy]

theorem nodup_keys_prepCatalog (options : JObj) (hnd : (options.map Prod.fst).Nodup) :
    ((CatalogClient.prepareBlockingParams (some options)).map Prod.fst).Nodup := by
  unfold CatalogClient.prepareBlockingParams
  exact nodup_keys_stepNodeMeta _ _ (nodup_keys_stepConsistency _ _
    (nodup_keys_stepWait _ _ (nodup_keys_stepIndex _ _
      (by rw [objSpread_nil options hnd]; exact hnd))))

theorem nodup_keys_prepHealth (options : JObj) (hnd : (options.map Prod.fst).Nodup) :
    ((HealthClient.prepareParams (some options)).map Prod.fst).Nodup := by
  unfold HealthClient.prepareParams
  exact nodup_keys_stepMergeCC _ _ (nodup_keys_stepPassing _ _
    (nodup_keys_stepNodeMeta _ _ (nodup_keys_stepConsistency _ _
      (nodup_keys_stepWait _ _ (nodup_keys_stepIndex _ _
        (by rw [objSpread_nil options hnd]; exact hnd))))))

theorem entries_from_objGet (base path : String) (p : JObj) (key : String) (v : JValue)
    (hnd : (p.map Prod.fst).Nodup) (hg : objGet p key = v) :
    ∀ u, buildUrl base path (some p) = .ok u →
      entriesFor key u.queryEntries = expectedEntries key v := by
  intro u hb
  rw [entriesFor_appendParams key p u.queryEntries hnd (buildUrl_some_ok base path p u hb),
    hg]

theorem objGet_ite_objSet_ne (c : Bool) (ps : JObj) (k key : String) (v : JValue)
    (h : k ≠ key) :
    objGet (if c = true then objSet ps k v else ps) key = objGet ps key := by
  split
  · exact objGet_objSet_ne ps k key v h
  · rfl

theorem objGet_ite_objSet2_ne (c : Bool) (ps : JObj) (k1 k2 key : String) (v1 v2 : JValue)
    (h1 : k1 ≠ key) (h2 : k2 ≠ key) :
    objGet (if c = true then objSet (objSet ps k1 v1) k2 v2 else ps) key
      = objGet ps key := by
  split
  · rw [objGet_objSet_ne _ _ _ _ h2, objGet_objSet_ne _ _ _ _ h1]
  · rfl

/--
Claim C4: for both normalization helpers (used by every catalog and health
operation that accepts options), an options bag carrying a `nodeMeta`
mapping produces prepared parameters in which the `nodeMeta` key is unset
(`undefined`) and each mapping entry is stored under the literal key
`node-meta=<key>`; consequently every URL built from the prepared
parameters carries exactly one query entry per mapping key, under the
literal `node-meta=<key>` name with the mapping value, and no `nodeMeta`
query entry at all.
-/
theorem node_meta_expansion (useHealth : Bool) (options : JObj) (m : List (String × String))
    (hnd : (options.map Prod.fst).Nodup)
    (hm : (m.map (fun e => "node-meta=" ++ e.1)).Nodup)
    (hmm : objGet options ("nodeMeta") = .obj (m.map (fun e => (e.1, JValue.str e.2)))) :
    ∀ p, p = (if useHealth then HealthClient.prepareParams (some options)
              else CatalogClient.prepareBlockingParams (some options)) →
      objGet p ("nodeMeta") = .undef
      ∧ (∀ e ∈ m, objGet p ("node-meta=" ++ e.1) = .str e.2)
      ∧ ∀ (base path : String) (u : BuiltUrl), buildUrl base path (some p) = .ok u →
          (∀ e ∈ m, entriesFor ("node-meta=" ++ e.1) u.queryEntries
              = [(("node-meta=" ++ e.1), e.2)])
          ∧ entriesFor ("nodeMeta") u.queryEntries = [] := by
  intro p hpdef
  have hment : (List.map (fun e2 => "node-meta=" ++ e2.1)
      (m.map (fun e => (e.1, JValue.str e.2)))).Nodup := by
    simpa [List.map_map, Function.comp] using hm
  have hnmu : ∀ q : JObj, objGet (stepNodeMeta options q) ("nodeMeta") = .undef := by
    intro q
    unfold stepNodeMeta
    rw [hmm]
    simp only [JValue.truthy, JValue.typeofObject, jsEntries, Bool.and_self, if_true]
    exact objGet_objSet_self _ _ _
  have hnmk : ∀ e ∈ m, ∀ q : JObj,
      objGet (stepNodeMeta options q) ("node-meta=" ++ e.1) = .str e.2 := by
    intro e he q
    unfold stepNodeMeta
    rw [hmm]
    simp only [JValue.truthy, JValue.typeofObject, jsEntries, Bool.and_self, if_true]
    rw [objGet_objSet_ne _ _ _ _ (Ne.symm (node_meta_key_ne_nodeMeta e.1))]
    have := objGet_nmFold_mem (m.map (fun e => (e.1, JValue.str e.2))) hment q
      (e.1, JValue.str e.2) (List.mem_map_of_mem _ he)
    simpa using this
  have hcore : objGet p ("nodeMeta") = .undef
      ∧ ∀ e ∈ m, objGet p ("node-meta=" ++ e.1) = .str e.2 := by
    cases useHealth with
    | false =>
        rw [if_neg (by simp : ¬(false = true))] at hpdef
        subst hpdef
        unfold CatalogClient.prepareBlockingParams
        exact ⟨hnmu _, fun e he => hnmk e he _⟩
    | true =>
        rw [if_pos rfl] at hpdef
        subst hpdef
        unfold HealthClient.prepareParams
        constructor
        · rw [objGet_stepMergeCC_ne _ _ _ (by decide) (by decide),
            objGet_stepPassing_ne _ _ _ (by decide)]
          exact hnmu _
        · intro e he
          rw [objGet_stepMergeCC_ne _ _ _
              (Ne.symm (node_meta_key_ne e.1 ("merge-central-config") (by decide)))
              (Ne.symm (node_meta_key_ne e.1 ("mergeCentralConfig") (by decide))),
            objGet_stepPassing_ne _ _ _
              (Ne.symm (node_meta_key_ne e.1 ("passing") (by decide)))]
          exact hnmk e he _
  have hpnd : (p.map Prod.fst).Nodup := by
    cases useHealth with
    | false =>
        rw [if_neg (by simp : ¬(false = true))] at hpdef
        rw [hpdef]
        exact nodup_keys_prepCatalog options hnd
    | true =>
        rw [if_pos rfl] at hpdef
        rw [hpdef]
        exact nodup_keys_prepHealth options hnd
  refine ⟨hcore.1, hcore.2, ?_⟩
  intro base path u hb
  constructor
  · intro e he
    have := entries_from_objGet base path p ("node-meta=" ++ e.1) (.str e.2) hpnd
      (hcore.2 e he) u hb
    simpa [expectedEntries, JValue.toStr] using this
  · have := entries_from_objGet base path p ("nodeMeta") .undef hpnd hcore.1 u hb
    simpa [expectedEntries] using this

theorem node_meta_expansion_applied :
    objGet (CatalogClient.prepareBlockingParams
        (some [(("nodeMeta"), .obj [(("a"), .str "1"), (("b"), .str "2")])]))
      ("nodeMeta") = .undef
    ∧ ∀ u, buildUrl "http://localhost:8500/v1" "/catalog/nodes"
          (some (CatalogClient.prepareBlockingParams
            (some [(("nodeMeta"), .obj [(("a"), .str "1"), (("b"), .str "2")])])))
          = .ok u →
        entriesFor ("node-meta=a") u.queryEntries = [(("node-meta=a"), "1")]
        ∧ entriesFor ("node-meta=b") u.queryEntries = [(("node-meta=b"), "2")]
        ∧ entriesFor ("nodeMeta") u.queryEntries = [] := by
  have h := node_meta_expansion false
    [(("nodeMeta"), .obj [(("a"), .str "1"), (("b"), .str "2")])]
    [(("a"), "1"), (("b"), "2")] (by decide) (by decide) rfl
    (CatalogClient.prepareBlockingParams
      (some [(("nodeMeta"), .obj [(("a"), .str "1"), (("b"), .str "2")])])) rfl
  refine ⟨h.1, ?_⟩
  intro u hb
  have hu := h.2.2 "http://localhost:8500/v1" "/catalog/nodes" u hb
  exact ⟨hu.1 (("a"), "1") (by simp), hu.1 (("b"), "2") (by simp), hu.2⟩

/--
Claim C3 (amended): catalog and health operations route their options
through the normalization helpers, for which `consistency: "consistent"`
sets the `consistent=true` query flag, `consistency: "stale"` sets
`stale=true`, `"default"` or an absent value sets neither, and the original
`consistency` key never reaches the built query string.  (Operations of the
other endpoint groups that accept a consistency option — e.g. `kv.get` —
forward the `consistency` key verbatim instead; see the counterexample.)
-/
theorem consistency_normalization (useHealth : Bool) (options : JObj)
    (hnd : (options.map Prod.fst).Nodup)
    (hcs : objGet options ("consistent") = .undef)
    (hst : objGet options ("stale") = .undef) :
    ∀ p, p = (if useHealth then HealthClient.prepareParams (some options)
              else CatalogClient.prepareBlockingParams (some options)) →
      (objGet options ("consistency") = .str "consistent" →
        objGet p ("consistent") = .boolv true
        ∧ objGet p ("stale") = .undef
        ∧ objGet p ("consistency") = .undef
        ∧ ∀ (base path : String) (u : BuiltUrl), buildUrl base path (some p) = .ok u →
            entriesFor ("consistent") u.queryEntries = [(("consistent"), "true")]
            ∧ entriesFor ("stale") u.queryEntries = []
            ∧ entriesFor ("consistency") u.queryEntries = [])
      ∧ (objGet options ("consistency") = .str "stale" →
        objGet p ("stale") = .boolv true
        ∧ objGet p ("consistent") = .undef
        ∧ objGet p ("consistency") = .undef
        ∧ ∀ (base path : String) (u : BuiltUrl), buildUrl base path (some p) = .ok u →
            entriesFor ("stale") u.queryEntries = [(("stale"), "true")]
            ∧ entriesFor ("consistent") u.queryEntries = []
            ∧ entriesFor ("consistency") u.queryEntries = [])
      ∧ ((objGet options ("consistency") = .str "default"
            ∨ objGet options ("consistency") = .undef) →
        objGet p ("consistent") = .undef
        ∧ objGet p ("stale") = .undef
        ∧ objGet p ("consistency") = .undef
        ∧ ∀ (base path : String) (u : BuiltUrl), buildUrl base path (some p) = .ok u →
            entriesFor ("consistent") u.queryEntries = []
            ∧ entriesFor ("stale") u.queryEntries = []
            ∧ entriesFor ("consistency") u.queryEntries = []) := by
  intro p hpdef
  have hpeel : ∀ key : String, ("index") ≠ key → ("wait") ≠ key →
      (∀ s : String, ("node-meta=" ++ s) ≠ key) → ("nodeMeta") ≠ key →
      ("passing") ≠ key → ("merge-central-config") ≠ key →
      ("mergeCentralConfig") ≠ key →
      objGet p key = objGet (stepConsistency options
        (stepWait options (stepIndex options (objSpread [] options)))) key := by
    intro key h1 h2 h3 h4 h5 h6 h7
    cases useHealth with
    | false =>
        rw [if_neg (by simp : ¬(false = true))] at hpdef
        subst hpdef
        unfold CatalogClient.prepareBlockingParams
        exact objGet_stepNodeMeta_ne _ _ _ h3 h4
    | true =>
        rw [if_pos rfl] at hpdef
        subst hpdef
        unfold HealthClient.prepareParams
        rw [objGet_stepMergeCC_ne _ _ _ h6 h7, objGet_stepPassing_ne _ _ _ h5]
        exact objGet_stepNodeMeta_ne _ _ _ h3 h4
  have hW : ∀ key : String, ("index") ≠ key → ("wait") ≠ key →
      objGet (stepWait options (stepIndex options (objSpread [] options))) key
        = objGet options key := by
    intro key h1 h2
    rw [objGet_stepWait_ne _ _ _ h2, objGet_stepIndex_ne _ _ _ h1,
      objSpread_nil options hnd]
  have hpnd : (p.map Prod.fst).Nodup := by
    cases useHealth with
    | false =>
        rw [if_neg (by simp : ¬(false = true))] at hpdef
        rw [hpdef]
        exact nodup_keys_prepCatalog options hnd
    | true =>
        rw [if_pos rfl] at hpdef
        rw [hpdef]
        exact nodup_keys_prepHealth options hnd
  have hpc : objGet p ("consistent") = objGet (stepConsistency options
      (stepWait options (stepIndex options (objSpread [] options)))) ("consistent") :=
    hpeel _ (by decide) (by decide) (fun s => node_meta_key_ne s _ (by decide))
      (by decide) (by decide) (by decide) (by decide)
  have hps : objGet p ("stale") = objGet (stepConsistency options
      (stepWait options (stepIndex options (objSpread [] options)))) ("stale") :=
    hpeel _ (by decide) (by decide) (fun s => node_meta_key_ne s _ (by decide))
      (by decide) (by decide) (by decide) (by decide)
  have hpy : objGet p ("consistency") = objGet (stepConsistency options
      (stepWait options (stepIndex options (objSpread [] options)))) ("consistency") :=
    hpeel _ (by decide) (by decide) (fun s => node_meta_key_ne s _ (by decide))
      (by decide) (by decide) (by decide) (by decide)
  refine ⟨?_, ?_, ?_⟩
  · intro hc
    have hcs3 := stepConsistency_consistent options
      (stepWait options (stepIndex options (objSpread [] options))) hc
    have hgc : objGet p ("consistent") = .boolv true := by rw [hpc]; exact hcs3.1
    have hgs : objGet p ("stale") = .undef := by
      rw [hps, hcs3.2.1, hW _ (by decide) (by decide)]
      exact hst
    have hgy : objGet p ("consistency") = .undef := by rw [hpy]; exact hcs3.2.2
    refine ⟨hgc, hgs, hgy, ?_⟩
    intro base path u hb
    refine ⟨?_, ?_, ?_⟩
    · have := entries_from_objGet base path p _ _ hpnd hgc u hb
      simpa [expectedEntries, JValue.toStr, JValue.toStrCore] using this
    · have := entries_from_objGet base path p _ _ hpnd hgs u hb
      simpa [expectedEntries] using this
    · have := entries_from_objGet base path p _ _ hpnd hgy u hb
      simpa [expectedEntries] using this
  · intro hc
    have hcs3 := stepConsistency_stale options
      (stepWait options (stepIndex options (objSpread [] options))) hc
    have hgs : objGet p ("stale") = .boolv true := by rw [hps]; exact hcs3.1
    have hgc : objGet p ("consistent") = .undef := by
      rw [hpc, hcs3.2.1, hW _ (by decide) (by decide)]
      exact hcs
    have hgy : objGet p ("consistency") = .undef := by rw [hpy]; exact hcs3.2.2
    refine ⟨hgs, hgc, hgy, ?_⟩
    intro base path u hb
    refine ⟨?_, ?_, ?_⟩
    · have := entries_from_objGet base path p _ _ hpnd hgs u hb
      simpa [expectedEntries, JValue.toStr, JValue.toStrCore] using this
    · have := entries_from_objGet base path p _ _ hpnd hgc u hb
      simpa [expectedEntries] using this
    · have := entries_from_objGet base path p _ _ hpnd hgy u hb
      simpa [expectedEntries] using this
  · intro hc
    have hall : objGet p ("consistent") = .undef
        ∧ objGet p ("stale") = .undef ∧ objGet p ("consistency") = .undef := by
      rcases hc with hc | hc
      · have hcs3 := stepConsistency_default options
          (stepWait options (stepIndex options (objSpread [] options))) hc
        refine ⟨?_, ?_, ?_⟩
        · rw [hpc, hcs3.1, hW _ (by decide) (by decide)]
          exact hcs
        · rw [hps, hcs3.2.1, hW _ (by decide) (by decide)]
          exact hst
        · rw [hpy]
          exact hcs3.2.2
      · have habs := stepConsistency_absent options
          (stepWait options (stepIndex options (objSpread [] options))) hc
        refine ⟨?_, ?_, ?_⟩
        · rw [hpc, habs, hW _ (by decide) (by decide)]
          exact hcs
        · rw [hps, habs, hW _ (by decide) (by decide)]
          exact hst
        · rw [hpy, habs, hW _ (by decide) (by decide)]
          exact hc
    refine ⟨hall.1, hall.2.1, hall.2.2, ?_⟩
    intro base path u hb
    refine ⟨?_, ?_, ?_⟩
    · have := entries_from_objGet base path p _ _ hpnd hall.1 u hb
      simpa [expectedEntries] using this
    · have := entries_from_objGet base path p _ _ hpnd hall.2.1 u hb
      simpa [expectedEntries] using this
    · have := entries_from_objGet base path p _ _ hpnd hall.2.2 u hb
      simpa [expectedEntries] using this

theorem consistency_normalization_applied :
    objGet (CatalogClient.prepareBlockingParams
        (some [(("consistency"), .str "consistent")])) ("consistent") = .boolv true
    ∧ objGet (CatalogClient.prepareBlockingParams
        (some [(("consistency"), .str "consistent")])) ("consistency") = .undef
    ∧ ∀ u, buildUrl "http://localhost:8500/v1" "/catalog/nodes"
          (some (CatalogClient.prepareBlockingParams
            (some [(("consistency"), .str "consistent")]))) = .ok u →
        entriesFor ("consistent") u.queryEntries = [(("consistent"), "true")]
        ∧ entriesFor ("consistency") u.queryEntries = [] := by
  have h := (consistency_normalization false [(("consistency"), .str "consistent")]
    (by decide) rfl rfl
    (CatalogClient.prepareBlockingParams (some [(("consistency"), .str "consistent")]))
    rfl).1 rfl
  refine ⟨h.1, h.2.2.1, ?_⟩
  intro u hb
  have hu := h.2.2.2 "http://localhost:8500/v1" "/catalog/nodes" u hb
  exact ⟨hu.1, hu.2.2⟩

/--
A network-call function that reflects the query entries of the URL it was
given back as a decoded JSON object, making the sent query string observable
through an operation's return value.
-/
def reflectQueryFetch : FetchFn := fun u _ =>
  .resp ⟨true, 200, "OK", none, some (""),
    some (.obj (u.queryEntries.map (fun e => (e.1, JValue.str e.2)))), []⟩

/--
Counterexample to claim C3 as stated: `kv.get` is an endpoint-group
operation that accepts a consistency option, yet it forwards its options
verbatim (`\x7b...options\x7d`) without the normalization helpers.  Against
the query-reflecting transport, `kv.get` with `consistency: "consistent"`
returns an object showing that the built request carried the literal query
entry `consistency=consistent` — and no `consistent=true` flag — so the
original `consistency` key does appear in the request's query parameters.
-/
theorem kv_get_forwards_consistency_verbatim :
    KVClient.get ⟨"http://localhost:8500/v1", [], reflectQueryFetch⟩
        ("k") (some [(("consistency"), .str "consistent")])
      = .obj [(("consistency"), .str "consistent")] := rfl

/--
Claim C8 (amended): for a request with a truthy body and no `Content-Type`
already present among the merged headers, the request carries an
octet-stream content type when the body is a string, an `ArrayBuffer` or a
`Blob`, and a JSON content type for every other body — including a Node
`Buffer`, which holds raw bytes but fails the `instanceof` tests; and
whenever the effective content type is `application/json` and the body has
JavaScript object type, the body is serialized to a JSON text payload
before sending.
-/
theorem content_type_negotiation (dh oh : HList) (body : JValue)
    (hct : (hGet (hSpread dh oh) ("Content-Type")).getD "" = "")
    (hb : body.truthy = true) :
    hGet (assembleHeaders dh oh body) ("Content-Type")
      = some (if body.isStringOrABOrBlob then "application/octet-stream"
              else "application/json")
    ∧ (body.isStringOrABOrBlob = false → body.typeofObject = true →
        assembleBody (assembleHeaders dh oh body) body = some (.text body.jstr))
    ∧ (body.isStringOrABOrBlob = true →
        assembleBody (assembleHeaders dh oh body) body = some (.raw body))
    ∧ (∀ rh : HList, hGet rh ("Content-Type") = some ("application/json") →
        body.typeofObject = true →
        assembleBody rh body = some (.text body.jstr)) := by
  have hu : body.isUndef = false := by
    cases body <;> simp_all [JValue.truthy, JValue.isUndef]
  have hcond : (body.truthy
      && ((hGet (hSpread dh oh) ("Content-Type")).getD "" == "")) = true := by
    rw [hb, hct]
    rfl
  have hh : hGet (assembleHeaders dh oh body) ("Content-Type")
      = some (if body.isStringOrABOrBlob then "application/octet-stream"
              else "application/json") := by
    unfold assembleHeaders
    simp only [hcond, if_true]
    cases hsb : body.isStringOrABOrBlob <;> simp [hGet_hSet_self]
  refine ⟨hh, ?_, ?_, ?_⟩
  · intro hsb hto
    unfold assembleBody
    rw [hu, hh, hsb]
    simp [hto]
  · intro hsb
    unfold assembleBody
    rw [hu, hh, hsb]
    simp [show (("application/octet-stream" : String)
      == ("application/json" : String)) = false from rfl]
  · intro rh hrh hto
    unfold assembleBody
    rw [hu, hrh]
    simp [hto]

theorem content_type_negotiation_applied :
    hGet (assembleHeaders [] [] (.obj [(("Name"), .str "web")])) ("Content-Type")
      = some ("application/json")
    ∧ assembleBody (assembleHeaders [] [] (.obj [(("Name"), .str "web")]))
        (.obj [(("Name"), .str "web")])
      = some (.text "\x7b\"Name\":\"web\"\x7d")
    ∧ hGet (assembleHeaders [] [] (.str "v")) ("Content-Type")
      = some ("application/octet-stream") := by
  have h := content_type_negotiation [] [] (.obj [(("Name"), .str "web")]) rfl rfl
  have h2 := content_type_negotiation [] [] (.str "v") rfl rfl
  exact ⟨h.1, h.2.1 rfl rfl, h2.1⟩

/--
A network-call function that reflects the request descriptor back as a
decoded JSON object: the effective `Content-Type` header and the shape of
the body that was attached (the serialized JSON text, or the marker `raw`).
-/
def reflectRequestFetch : FetchFn := fun _ i =>
  .resp ⟨true, 200, "OK", none, some (""),
    some (.obj [(("ct"), .str ((hGet i.headers ("Content-Type")).getD ("missing"))),
      (("body"), .str (match i.body with
        | some (.text s) => s
        | some (.raw _) => "raw"
        | none => "none"))]), []⟩

/--
Counterexample to claim C8 as stated: a Node `Buffer` body is raw bytes,
but because `Buffer` is not `instanceof ArrayBuffer` (it is a `Uint8Array`
subclass) the request carries the JSON content type — not octet-stream —
and the byte payload is JSON-serialized through `Buffer.toJSON` before
sending.  The reflecting transport exposes the assembled request: sending
`Buffer [104, 105]` yields content type `application/json` and the body
text `\x7b"type":"Buffer","data":[104,105]\x7d`.
-/
theorem buffer_body_gets_json_content_type :
    HttpClient.request ⟨"http://localhost:8500/v1", [], reflectRequestFetch⟩
        ("PUT") ("/kv/k") ⟨none, .buffer [104, 105], [], .json⟩
      = .ok (.obj [(("ct"), .str "application/json"),
          (("body"), .str "\x7b\"type\":\"Buffer\",\"data\":[104,105]\x7d")]) := rfl
